import Mathlib

/-!
# Cooperative scheduler extension: a shallow embedding

Source: `src/extensions/scheduler_extension.c`.

The C globals (`tasks`, `current_task_idx`, `next_task_id`, `scheduler_ext_id`)
become fields of `World`, next to what the program shares with its
environment: byte memory, the allocator's live regions, and a log of every
call that leaves the file (`terminal_writestring`, `kmalloc`, `kfree`,
`context_switch`, `hlt`, `register_command`).  Every C function is a Lean
function from `World` to `World` (with the return value in front when there
is one).  Inputs the environment decides are explicit arguments: the address
the allocator hands out, and the stack pointer `context_switch` saves.
-/

namespace Sched

/-! ## Constants and the task control block -/

/-- The constant `MAX_TASKS` (4): the capacity of the task table. -/
abbrev MAX_TASKS : Nat := 4

/-- The constant `TASK_STACK_SIZE` (4096): bytes allocated for a task stack. -/
abbrev TASK_STACK_SIZE : Nat := 4096

/-- Two to the thirty-two: `uint32_t` values and addresses live below it. -/
abbrev U32 : Nat := 4294967296

/-- The `struct TaskControlBlock` of the source, field for field.  `uint32_t`
fields and the `stack_base` pointer are naturals (address `0` is `NULL`),
`int id` is an integer, the `int active` flag (only ever written `0` or `1`)
is a boolean and the borrowed `name` is a string. -/
structure TaskControlBlock where
  esp : Nat
  ebp : Nat
  eflags : Nat
  edi : Nat
  esi : Nat
  ebx : Nat
  edx : Nat
  ecx : Nat
  eax : Nat
  eip : Nat
  stack_base : Nat
  id : Int
  active : Bool
  name : String
deriving DecidableEq, Repr

/-- The zero-initialised record of static storage. -/
def TaskControlBlock.zero : TaskControlBlock :=
  ⟨0, 0, 0, 0, 0, 0, 0, 0, 0, 0, 0, 0, false, ""⟩

instance : Inhabited TaskControlBlock := ⟨TaskControlBlock.zero⟩

/-- First argument of `context_switch`: where the outgoing stack pointer is
stored.  `NULL`, the local `dummy_esp` of `cmd_scheduler_start`, or
`&tasks[idx].esp`. -/
inductive SavePtr where
  | null
  | dummy_esp
  | task_esp (idx : Int)
deriving DecidableEq, Repr

/-- One call that leaves the file, in program order. -/
inductive Event where
  | terminal_writestring (text : String)
  /-- The pair `int_to_str(n, buf); terminal_writestring(buf);`. -/
  | terminal_writeint (n : Int)
  | kmalloc (size : Nat) (ret : Nat)
  | kfree (ptr : Nat)
  | context_switch (old_esp : SavePtr) (new_esp : Nat)
  | hlt
  | register_command (name : String) (description : String) (ext_id : Int)
deriving DecidableEq, Repr

/-- Link-time addresses of the three demo entry functions. -/
structure Image where
  task_a_entry : Nat
  task_b_entry : Nat
  task_c_entry : Nat
deriving DecidableEq, Repr

/-- The globals of the file together with the environment they act on.
`oob` collects every index outside `0..MAX_TASKS-1` that was used to access
`tasks`; such a read yields the zero record and such a write is dropped.
`overrun` collects every integer whose decimal text did not fit the local
buffer `char id_str[10]` it was written to; what the C program does after
such a write is undefined, and the other fields then only say what the
statements of the source ask for. -/
structure World where
  scheduler_ext_id : Int
  tasks : Fin MAX_TASKS → TaskControlBlock
  current_task_idx : Int
  next_task_id : Int
  mem : Nat → Nat
  live : List Nat
  log : List Event
  oob : List Int
  overrun : List Int

/-- Static initialisers of the file: `scheduler_ext_id = -1`, a zeroed table,
`current_task_idx = -1`, `next_task_id = 0`; no region is live yet. -/
def boot : World where
  scheduler_ext_id := -1
  tasks := fun _ => TaskControlBlock.zero
  current_task_idx := -1
  next_task_id := 0
  mem := fun _ => 0
  live := []
  log := []
  oob := []
  overrun := []

/-! ## Table access with a C `int` index -/

/-- The slot an `int` index denotes, when it is inside the array. -/
def slot? (i : Int) : Option (Fin MAX_TASKS) :=
  if h : 0 ≤ i ∧ i < 4 then some ⟨i.toNat, by show i.toNat < 4; omega⟩ else none

/-- The out-of-range indices among the single index `i`. -/
def chk (i : Int) : List Int :=
  match slot? i with
  | some _ => []
  | none => [i]

/-- Entry `i` of a table; the zero record outside the array. -/
def tableAt (t : Fin MAX_TASKS → TaskControlBlock) (i : Int) : TaskControlBlock :=
  match slot? i with
  | some k => t k
  | none => default

/-- Table `t` with entry `i` replaced by `f` of it; unchanged outside the array. -/
def tableSet (t : Fin MAX_TASKS → TaskControlBlock) (i : Int)
    (f : TaskControlBlock → TaskControlBlock) : Fin MAX_TASKS → TaskControlBlock :=
  match slot? i with
  | some k => Function.update t k (f (t k))
  | none => t

/-- Record the use of index `i` on `tasks`. -/
def World.touch (s : World) (i : Int) : World :=
  { s with oob := s.oob ++ chk i }

/-- The value of `tasks[i]`. -/
def World.tcb (s : World) (i : Int) : TaskControlBlock :=
  tableAt s.tasks i

/-- The assignment `tasks[i] = f(tasks[i])`: a field update on slot `i`. -/
def World.setTcb (s : World) (i : Int) (f : TaskControlBlock → TaskControlBlock) : World :=
  { s with tasks := tableSet s.tasks i f, oob := s.oob ++ chk i }

/-! ## The environment -/

/-- Wrap-around of a 32-bit `int` (two's complement). -/
def wrap_int (x : Int) : Int := (x + 2147483648) % 4294967296 - 2147483648

/-- Modelled from the spec: `write_text(string)`, the append-only console sink
(`terminal_writestring` of `base_kernel.h`). -/
def terminal_writestring (s : World) (text : String) : World :=
  { s with log := s.log ++ [Event.terminal_writestring text] }

/-- The decimal text of `n` and its terminating NUL fit the ten bytes of
`char id_str[10]`: at most nine digits, or a sign and at most eight digits. -/
def fits_id_str (n : Int) : Bool :=
  decide (-100000000 < n ∧ n < 1000000000)

/-- The integers among the single `n` whose text overruns `id_str`. -/
def id_str_chk (n : Int) : List Int :=
  if fits_id_str n then [] else [n]

/-- Modelled from the spec: `int_to_str(n, id_str)` of `base_kernel.h`, which
writes the decimal text of `n` into the caller's `char id_str[10]`, followed
by `terminal_writestring(id_str)`.  The log keeps the integer; a text that
does not fit the buffer is recorded in `overrun`. -/
def terminal_writeint (s : World) (n : Int) : World :=
  { s with log := s.log ++ [Event.terminal_writeint n],
           overrun := s.overrun ++ id_str_chk n }

/-- Modelled from the spec: `allocate(size) -> memory region or failure`.  The
environment proposes the address `a`; the call succeeds with `a` when `a` is
not `NULL`, the region fits the 32-bit address space and `a` is not live, and
it fails with `NULL` otherwise.  A successful call makes `a` live. -/
def kmalloc (s : World) (size : Nat) (a : Nat) : Nat × World :=
  if a ≠ 0 ∧ a + size ≤ U32 ∧ a ∉ s.live then
    (a, { s with live := a :: s.live, log := s.log ++ [Event.kmalloc size a] })
  else
    (0, { s with log := s.log ++ [Event.kmalloc size 0] })

/-- Modelled from the spec: `free(region)`; the region stops being live. -/
def kfree (s : World) (ptr : Nat) : World :=
  { s with live := s.live.erase ptr, log := s.log ++ [Event.kfree ptr] }

/-- Modelled from the spec: `switch(out current_state_slot_or_null, next_state)`
(the `extern` assembly routine `context_switch`).  The stack pointer of the
caller, `cpu_esp`, is stored through `old_esp` (skipped when null; the local
`dummy_esp` is not part of the world), then control moves to `new_esp`. -/
def context_switch (s : World) (old_esp : SavePtr) (new_esp : Nat) (cpu_esp : Nat) : World :=
  let s := { s with log := s.log ++ [Event.context_switch old_esp new_esp] }
  match old_esp with
  | SavePtr.task_esp idx => s.setTcb idx (fun t => { t with esp := cpu_esp })
  | _ => s

/-- The `hlt` instruction of `asm volatile("hlt")`: the processor idles until
the next interrupt, then execution continues with the next statement. -/
def hlt (s : World) : World :=
  { s with log := s.log ++ [Event.hlt] }

/-- Modelled from the spec: `register_command(name, handler, description,
owner_id)` of the host's command dispatcher. -/
def register_command (s : World) (name description : String) (ext_id : Int) : World :=
  { s with log := s.log ++ [Event.register_command name description ext_id] }

/-! ## Memory -/

/-- Store the 32-bit value `v` at byte address `a`, little-endian. -/
def write32 (m : Nat → Nat) (a v : Nat) : Nat → Nat := fun x =>
  if x = a % U32 then v % 256
  else if x = (a + 1) % U32 then v / 256 % 256
  else if x = (a + 2) % U32 then v / 65536 % 256
  else if x = (a + 3) % U32 then v / 16777216 % 256
  else m x

/-- Load the 32-bit value at byte address `a`, little-endian. -/
def read32 (m : Nat → Nat) (a : Nat) : Nat :=
  m (a % U32) + 256 * m ((a + 1) % U32) + 65536 * m ((a + 2) % U32)
    + 16777216 * m ((a + 3) % U32)

/-- The push `stack_top -= 4; *(uint32_t*)stack_top = v;`. -/
def push32 (p : Nat × (Nat → Nat)) (v : Nat) : Nat × (Nat → Nat) :=
  let stack_top := (p.1 + U32 - 4) % U32
  (stack_top, write32 p.2 stack_top v)

/-! ## The functions of the file -/

/-- The loop of `find_free_tcb_slot`; `n` iterations remain and `i` is the
loop variable, so `i < MAX_TASKS` whenever the body runs. -/
def find_free_tcb_slot_loop (tasks : Fin MAX_TASKS → TaskControlBlock) : Nat → Int → Int
  | 0, _ => -1
  | n + 1, i =>
    if !(tableAt tasks i).active then i else find_free_tcb_slot_loop tasks n (i + 1)

/-- The function `static int find_free_tcb_slot()`. -/
def find_free_tcb_slot (s : World) : Int :=
  find_free_tcb_slot_loop s.tasks MAX_TASKS 0

/-- The function `static uint32_t setup_task_stack(uint8_t* stack_base, void (*entry_point)())`:
returns the initial stack pointer and the memory with the frame written. -/
def setup_task_stack (m : Nat → Nat) (stack_base entry_point : Nat) : Nat × (Nat → Nat) :=
  let p : Nat × (Nat → Nat) := ((stack_base + TASK_STACK_SIZE) % U32, m)
  let p := push32 p (entry_point % U32)
  let p := push32 p 0x202
  let p := push32 p 0
  let p := push32 p 0
  let p := push32 p 0
  let p := push32 p 0
  let p := push32 p 0
  let p := push32 p 0
  let p := push32 p 0
  p

/-- The function `int task_create(void (*entry_point)(), const char* name)`; `a` is the
address the allocator proposes for the stack. -/
def task_create (s : World) (entry_point : Nat) (name : String) (a : Nat) : Int × World :=
  let slot := find_free_tcb_slot s
  if slot = -1 then
    (-1, terminal_writestring s "SCHED: No free task slots available.\n")
  else
    let r := kmalloc s TASK_STACK_SIZE a
    let s := r.2.setTcb slot (fun t => { t with stack_base := r.1 })
    if (s.tcb slot).stack_base = 0 then
      (-1, terminal_writestring s "SCHED: Failed to allocate stack for new task.\n")
    else
      let f := setup_task_stack s.mem (s.tcb slot).stack_base entry_point
      let s := { s with mem := f.2 }
      let s := s.setTcb slot (fun t => { t with esp := f.1 })
      let s := s.setTcb slot (fun t => { t with active := true })
      let s := s.setTcb slot (fun t => { t with id := s.next_task_id })
      let s := { s with next_task_id := wrap_int (s.next_task_id + 1) }
      let s := s.setTcb slot (fun t => { t with name := name })
      let s := terminal_writestring s "SCHED: Created task '"
      let s := terminal_writestring s name
      let s := terminal_writestring s "' (ID: "
      let s := terminal_writeint s (s.tcb slot).id
      let s := terminal_writestring s ") in slot "
      let s := terminal_writeint s slot
      let s := terminal_writestring s ".\n"
      ((s.tcb slot).id, s)

/-- The scan of `task_yield`: `for (int i = 1; i <= MAX_TASKS; i++)` with
`next_idx = (old_task_idx + i) % MAX_TASKS` (C remainder); `n` iterations
remain.  Returns `next_task_to_run`. -/
def task_yield_loop (old_task_idx : Int) : Nat → Int → World → Int × World
  | 0, _, s => (-1, s)
  | n + 1, i, s =>
    let next_idx := Int.tmod (old_task_idx + i) MAX_TASKS
    let s := s.touch next_idx
    if (s.tcb next_idx).active then (next_idx, s)
    else task_yield_loop old_task_idx n (i + 1) s

/-- The function `void task_yield()`; `cpu_esp` is the stack pointer that `context_switch`
saves for the outgoing task. -/
def task_yield (s : World) (cpu_esp : Nat) : World :=
  if s.current_task_idx = -1 then s
  else
    let old_task_idx := s.current_task_idx
    let r := task_yield_loop old_task_idx MAX_TASKS 1 s
    let next_task_to_run := r.1
    let s := r.2
    if next_task_to_run = -1 ∨ next_task_to_run = old_task_idx then s
    else
      let s := { s with current_task_idx := next_task_to_run }
      let s := s.touch s.current_task_idx
      context_switch s (SavePtr.task_esp old_task_idx) (s.tcb s.current_task_idx).esp cpu_esp

/-- The scan `for (int i = 0; i < MAX_TASKS; i++) if (tasks[i].active) ...`
shared by `task_terminate_self` and `cmd_scheduler_start`: the first active
index, or the initial value `-1`. -/
def first_active_loop (tasks : Fin MAX_TASKS → TaskControlBlock) : Nat → Int → Int
  | 0, _ => -1
  | n + 1, i => if (tableAt tasks i).active then i else first_active_loop tasks n (i + 1)

/-- The function `void task_terminate_self()`. -/
def task_terminate_self (s : World) : World :=
  if s.current_task_idx = -1 then
    terminal_writestring s "SCHED: Cannot terminate, no current task.\n"
  else
    let s := terminal_writestring s "SCHED: Terminating task '"
    let s := s.touch s.current_task_idx
    let s := terminal_writestring s (s.tcb s.current_task_idx).name
    let s := terminal_writestring s "' (ID: "
    let s := terminal_writeint s (s.tcb s.current_task_idx).id
    let s := terminal_writestring s ").\n"
    let s := s.setTcb s.current_task_idx (fun t => { t with active := false })
    let s := kfree s (s.tcb s.current_task_idx).stack_base
    let s := { s with current_task_idx := -1 }
    let next_task_to_run := first_active_loop s.tasks MAX_TASKS 0
    let s :=
      if next_task_to_run = -1 then
        hlt (terminal_writestring s "SCHED: All tasks terminated. Kernel will now halt.\n")
      else s
    let s := { s with current_task_idx := next_task_to_run }
    let s := s.touch s.current_task_idx
    context_switch s SavePtr.null (s.tcb s.current_task_idx).esp 0

/-- The loop `tasks[i].active = 0; tasks[i].stack_base = NULL;` of
`cmd_scheduler_start` and `scheduler_extension_init`. -/
def clear_loop : Nat → Int → World → World
  | 0, _, s => s
  | n + 1, i, s =>
    let s := s.setTcb i (fun t => { t with active := false })
    let s := s.setTcb i (fun t => { t with stack_base := 0 })
    clear_loop n (i + 1) s

/-- The function `void cmd_scheduler_start(const char* args)`; `a1 a2 a3` are the addresses
the allocator proposes for the three demo stacks.  The text written after
`context_switch` is only reached if control comes back to the caller's stack,
whose pointer is kept in a dead local, so the model stops at the switch. -/
def cmd_scheduler_start (img : Image) (s : World) (a1 a2 a3 : Nat) : World :=
  if s.current_task_idx ≠ -1 then
    terminal_writestring s "SCHED: Scheduler already running.\n"
  else
    let s := terminal_writestring s "SCHED: Initializing scheduler...\n"
    let s := clear_loop MAX_TASKS 0 s
    let s := { s with next_task_id := 0 }
    let s := (task_create s img.task_a_entry "Task A" a1).2
    let s := (task_create s img.task_b_entry "Task B" a2).2
    let s := (task_create s img.task_c_entry "Task C" a3).2
    let s := { s with current_task_idx := -1 }
    let s := { s with current_task_idx := first_active_loop s.tasks MAX_TASKS 0 }
    if s.current_task_idx = -1 then
      terminal_writestring s "SCHED: No tasks to run. Scheduler not started.\n"
    else
      let s := terminal_writestring s "SCHED: Starting first task.\n"
      let s := s.touch s.current_task_idx
      context_switch s SavePtr.dummy_esp (s.tcb s.current_task_idx).esp 0

/-- The function `void cmd_task_yield(const char* args)`. -/
def cmd_task_yield (s : World) (cpu_esp : Nat) : World :=
  if s.current_task_idx = -1 then
    terminal_writestring s "SCHED: Scheduler not running, no task to yield from.\n"
  else task_yield s cpu_esp

/-- The listing loop of `cmd_list_tasks`. -/
def list_loop : Nat → Int → World → World
  | 0, _, s => s
  | n + 1, i, s =>
    if (s.tcb i).active then
      let s := terminal_writestring s "  - ID: "
      let s := terminal_writeint s (s.tcb i).id
      let s := terminal_writestring s ", Name: '"
      let s := terminal_writestring s (s.tcb i).name
      let s := terminal_writestring s "'\n"
      list_loop n (i + 1) s
    else list_loop n (i + 1) s

/-- The function `void cmd_list_tasks(const char* args)`. -/
def cmd_list_tasks (s : World) : World :=
  let s := terminal_writestring s "SCHED: Active Tasks:\n"
  let s := list_loop MAX_TASKS 0 s
  let s := terminal_writestring s "SCHED: Current Task: "
  if s.current_task_idx ≠ -1 then
    let s := s.touch s.current_task_idx
    let s := terminal_writestring s (s.tcb s.current_task_idx).name
    let s := terminal_writestring s " (ID: "
    let s := terminal_writeint s (s.tcb s.current_task_idx).id
    terminal_writestring s ")\n"
  else
    terminal_writestring s "None\n"

/-- The function `int scheduler_extension_init(void)`. -/
def scheduler_extension_init (s : World) : Int × World :=
  let s := terminal_writestring s "SCHED: Basic Cooperative Scheduler Extension Initializing...\n"
  let s := clear_loop MAX_TASKS 0 s
  let s := { s with current_task_idx := -1 }
  let s := register_command s "sched_start" "Start the cooperative scheduler with example tasks" s.scheduler_ext_id
  let s := register_command s "task_yield" "Manually yield CPU to the next task" s.scheduler_ext_id
  let s := register_command s "list_tasks" "List all active tasks" s.scheduler_ext_id
  let s := terminal_writestring s "SCHED: Extension Initialized. Use 'sched_start' to begin.\n"
  (0, s)

/-- The loop of `scheduler_extension_cleanup`. -/
def cleanup_loop : Nat → Int → World → World
  | 0, _, s => s
  | n + 1, i, s =>
    if (s.tcb i).active then
      let s := kfree s (s.tcb i).stack_base
      let s := s.setTcb i (fun t => { t with active := false })
      let s := s.setTcb i (fun t => { t with stack_base := 0 })
      cleanup_loop n (i + 1) s
    else cleanup_loop n (i + 1) s

/-- The function `void scheduler_extension_cleanup(void)`. -/
def scheduler_extension_cleanup (s : World) : World :=
  let s := terminal_writestring s "SCHED: Scheduler Extension Cleaning up...\n"
  let s := cleanup_loop MAX_TASKS 0 s
  terminal_writestring s "SCHED: Cleanup complete.\n"

/-! ## Runs of calls -/

/-- A run of `task_create` calls: the return values in call order and the final
world.  A request is the entry point, the name and the address the allocator
proposes for that call. -/
def task_create_seq : World → List (Nat × String × Nat) → List Int × World
  | s, [] => ([], s)
  | s, q :: rest =>
    let r := task_create s q.1 q.2.1 q.2.2
    let t := task_create_seq r.2 rest
    (r.1 :: t.1, t.2)

/-- Every allocation the run of `task_create` calls makes succeeds: a call
either finds the table full (and does not allocate) or gets a region. -/
def allocs_succeed : World → List (Nat × String × Nat) → Bool
  | _, [] => true
  | s, q :: rest =>
    (find_free_tcb_slot s == -1 || (kmalloc s TASK_STACK_SIZE q.2.2).1 != 0)
      && allocs_succeed (task_create s q.1 q.2.1 q.2.2).2 rest

/-- Number of active slots (table occupancy). -/
def active_count (s : World) : Nat :=
  (List.finRange MAX_TASKS).countP (fun j => (s.tasks j).active)

/-- One call of a public operation, with the inputs the environment supplies. -/
inductive Op where
  | task_create (entry_point : Nat) (name : String) (a : Nat)
  | cmd_scheduler_start (a1 a2 a3 : Nat)
  | task_yield (cpu_esp : Nat)
  | cmd_task_yield (cpu_esp : Nat)
  | task_terminate_self
  | cmd_list_tasks
  | scheduler_extension_cleanup
deriving DecidableEq, Repr

/-- The world after one call. -/
def step (img : Image) (s : World) : Op → World
  | Op.task_create entry_point name a => (task_create s entry_point name a).2
  | Op.cmd_scheduler_start a1 a2 a3 => cmd_scheduler_start img s a1 a2 a3
  | Op.task_yield cpu_esp => task_yield s cpu_esp
  | Op.cmd_task_yield cpu_esp => cmd_task_yield s cpu_esp
  | Op.task_terminate_self => task_terminate_self s
  | Op.cmd_list_tasks => cmd_list_tasks s
  | Op.scheduler_extension_cleanup => scheduler_extension_cleanup s

/-- The world after a sequence of calls. -/
def run (img : Image) : World → List Op → World
  | s, [] => s
  | s, op :: ops => run img (step img s op) ops

/-- The stacks the table owns: `stack_base` of every active slot, in slot order. -/
def owned_stacks (s : World) : List Nat :=
  ((List.finRange MAX_TASKS).filter (fun j => (s.tasks j).active)).map
    (fun j => (s.tasks j).stack_base)

/-! ## Concrete worlds -/

/-- Entry addresses used in the examples. -/
def demo_image : Image := ⟨0x100000, 0x100100, 0x100200⟩

/-- The world after `scheduler_extension_init` on the static initial state. -/
def fresh : World := (scheduler_extension_init boot).2

/-- The world after `sched_start` on the fresh world: Task A, B, C in slots
0, 1, 2 with stacks at `0x200000`, `0x201000`, `0x202000`, cursor on slot 0. -/
def demo_running : World :=
  cmd_scheduler_start demo_image fresh 0x200000 0x201000 0x202000

/-- The world inside `cmd_scheduler_start` (called with no cursor) right after
its three `task_create` calls: table cleared, counter reset, demo tasks created. -/
def demo_tasks_created (img : Image) (s : World) (a1 a2 a3 : Nat) : World :=
  (task_create (task_create (task_create
    { clear_loop MAX_TASKS 0 (terminal_writestring s "SCHED: Initializing scheduler...\n") with
      next_task_id := 0 }
    img.task_a_entry "Task A" a1).2 img.task_b_entry "Task B" a2).2
    img.task_c_entry "Task C" a3).2
/-- A world with a full table: four tasks with stacks at `0x200000 + 0x1000 * j`,
identities `0..3`, cursor on slot 1 and the counter at 4. -/
def full_table : World :=
  { boot with
    tasks := fun j =>
      { TaskControlBlock.zero with
        esp := 0x200000 + 0x1000 * j.val + 4060
        stack_base := 0x200000 + 0x1000 * j.val
        id := j.val
        active := true
        name := "Task" }
    current_task_idx := 1
    next_task_id := 4
    live := [0x203000, 0x202000, 0x201000, 0x200000] }

/-- The lines `cmd_list_tasks` writes for one task: its identity and its name. -/
def task_entry (t : TaskControlBlock) : List Event :=
  [Event.terminal_writestring "  - ID: ",
   Event.terminal_writeint t.id,
   Event.terminal_writestring ", Name: '",
   Event.terminal_writestring t.name,
   Event.terminal_writestring "'\n"]

/-- The listing the spec asks for: one entry per slot whose `active` flag is set,
in ascending slot order, and nothing for an inactive slot. -/
def active_entries (tasks : Fin MAX_TASKS → TaskControlBlock) : List Event :=
  (((List.finRange MAX_TASKS).filter (fun j => (tasks j).active)).map
    (fun j => task_entry (tasks j))).flatten

/-- The identities `cmd_list_tasks` prints in its loop whose text overruns
`id_str`: those of the active slots, in slot order. -/
def active_overruns (tasks : Fin MAX_TASKS → TaskControlBlock) : List Int :=
  (((List.finRange MAX_TASKS).filter (fun j => (tasks j).active)).map
    (fun j => id_str_chk (tasks j).id)).flatten

/-- The closing lines of `cmd_list_tasks`: the current task, or `None`. -/
def current_report (s : World) : List Event :=
  if s.current_task_idx ≠ -1 then
    [Event.terminal_writestring (s.tcb s.current_task_idx).name,
     Event.terminal_writestring " (ID: ",
     Event.terminal_writeint (s.tcb s.current_task_idx).id,
     Event.terminal_writestring ")\n"]
  else [Event.terminal_writestring "None\n"]

/-- A world with one task left: Task C in slot 2 with its stack at `0x202000`,
cursor on slot 2 and the counter at 3. -/
def last_task : World :=
  { boot with
    tasks := fun j =>
      if j = 2 then
        { TaskControlBlock.zero with
          esp := 0x202000 + 4060
          stack_base := 0x202000
          id := 2
          active := true
          name := "Task C" }
      else TaskControlBlock.zero
    current_task_idx := 2
    next_task_id := 3
    live := [0x202000] }

/-- The identities in use are sound: the counter is non-negative, the identity
of every active slot is non-negative and below the counter, and no two active
slots have the same identity. -/
def ids_valid (s : World) : Prop :=
  0 ≤ s.next_task_id ∧
  (∀ j : Fin MAX_TASKS, (s.tasks j).active = true →
    0 ≤ (s.tasks j).id ∧ (s.tasks j).id < s.next_task_id) ∧
  (∀ j k : Fin MAX_TASKS, (s.tasks j).active = true → (s.tasks k).active = true → j ≠ k →
    (s.tasks j).id ≠ (s.tasks k).id)

/-- The full table with the next-identity counter set to `n`. -/
def full_table_at (n : Int) : World :=
  { full_table with next_task_id := n }

theorem slot?_coe (k : Fin MAX_TASKS) : slot? (k : Int) = some k := by
  fin_cases k <;> rfl

theorem slot?_in {i : Int} (h : 0 ≤ i ∧ i < 4) :
    ∃ k : Fin MAX_TASKS, (k : Int) = i ∧ slot? i = some k := by
  have h4 : i = 0 ∨ i = 1 ∨ i = 2 ∨ i = 3 := by omega
  rcases h4 with rfl | rfl | rfl | rfl
  · exact ⟨0, rfl, rfl⟩
  · exact ⟨1, rfl, rfl⟩
  · exact ⟨2, rfl, rfl⟩
  · exact ⟨3, rfl, rfl⟩

theorem slot?_out {i : Int} (h : ¬(0 ≤ i ∧ i < 4)) : slot? i = none := dif_neg h

theorem chk_in {i : Int} (h : 0 ≤ i ∧ i < 4) : chk i = [] := by
  obtain ⟨k, -, hk⟩ := slot?_in h
  simp [chk, hk]

theorem chk_out {i : Int} (h : ¬(0 ≤ i ∧ i < 4)) : chk i = [i] := by
  simp [chk, slot?_out h]

theorem tableAt_coe (t : Fin MAX_TASKS → TaskControlBlock) (k : Fin MAX_TASKS) :
    tableAt t (k : Int) = t k := by
  simp [tableAt, slot?_coe]

theorem tableSet_coe (t : Fin MAX_TASKS → TaskControlBlock) (k : Fin MAX_TASKS)
    (f : TaskControlBlock → TaskControlBlock) :
    tableSet t (k : Int) f = Function.update t k (f (t k)) := by
  simp [tableSet, slot?_coe]

theorem tableSet_out (t : Fin MAX_TASKS → TaskControlBlock) {i : Int}
    (h : ¬(0 ≤ i ∧ i < 4)) (f : TaskControlBlock → TaskControlBlock) :
    tableSet t i f = t := by
  simp [tableSet, slot?_out h]

theorem tableAt_out (t : Fin MAX_TASKS → TaskControlBlock) {i : Int}
    (h : ¬(0 ≤ i ∧ i < 4)) : tableAt t i = TaskControlBlock.zero := by
  simp [tableAt, slot?_out h]; rfl

theorem tableAt_set_same (t : Fin MAX_TASKS → TaskControlBlock) {i : Int}
    (h : 0 ≤ i ∧ i < 4) (f : TaskControlBlock → TaskControlBlock) :
    tableAt (tableSet t i f) i = f (tableAt t i) := by
  obtain ⟨k, rfl, -⟩ := slot?_in h
  simp [tableAt_coe, tableSet_coe]

theorem tableAt_set_ne (t : Fin MAX_TASKS → TaskControlBlock) {i j : Int}
    (h : i ≠ j) (f : TaskControlBlock → TaskControlBlock) :
    tableAt (tableSet t i f) j = tableAt t j := by
  by_cases hi : 0 ≤ i ∧ i < 4
  · by_cases hj : 0 ≤ j ∧ j < 4
    · obtain ⟨k, rfl, -⟩ := slot?_in hi
      obtain ⟨l, rfl, -⟩ := slot?_in hj
      have hkl : l ≠ k := by
        rintro rfl; exact h rfl
      simp [tableAt_coe, tableSet_coe, Function.update_noteq hkl]
    · simp [tableAt, slot?_out hj]
  · rw [tableSet_out t hi]

theorem touch_in (s : World) {i : Int} (h : 0 ≤ i ∧ i < 4) : s.touch i = s := by
  simp [World.touch, chk_in h]

theorem tableSet_fin_same (t : Fin MAX_TASKS → TaskControlBlock) (j : Fin MAX_TASKS)
    (f : TaskControlBlock → TaskControlBlock) :
    tableSet t (j : Int) f j = f (t j) := by
  rw [tableSet_coe]
  simp

theorem tableSet_fin_ne (t : Fin MAX_TASKS → TaskControlBlock) (i : Int) (j : Fin MAX_TASKS)
    (f : TaskControlBlock → TaskControlBlock) (h : (j : Int) ≠ i) :
    tableSet t i f j = t j := by
  rw [← tableAt_coe (tableSet t i f) j, tableAt_set_ne t (Ne.symm h), tableAt_coe]

/-! ### `task_yield` -/

theorem task_yield_loop_spec (c : Int) (hc : 0 ≤ c) (s : World) :
    ∀ (n : Nat) (i : Int), 0 ≤ i →
      (task_yield_loop c n i s).2 = s ∧
      (((task_yield_loop c n i s).1 = -1 ∧
          ∀ k : Int, i ≤ k → k < i + n → (s.tcb ((c + k) % 4)).active = false) ∨
        ∃ k : Int, i ≤ k ∧ k < i + n ∧ (task_yield_loop c n i s).1 = (c + k) % 4 ∧
          (s.tcb ((c + k) % 4)).active = true ∧
          ∀ k' : Int, i ≤ k' → k' < k → (s.tcb ((c + k') % 4)).active = false) := by
  intro n
  induction n with
  | zero =>
    intro i _
    refine ⟨rfl, Or.inl ⟨rfl, ?_⟩⟩
    intro k h1 h2
    simp at h2
    omega
  | succ n ih =>
    intro i hi
    have hmod : Int.tmod (c + i) (MAX_TASKS : Nat) = (c + i) % 4 :=
      Int.tmod_eq_emod (by omega) (by decide)
    have hin : 0 ≤ (c + i) % 4 ∧ (c + i) % 4 < 4 := by omega
    have hstep : task_yield_loop c (n + 1) i s =
        if (s.tcb ((c + i) % 4)).active then ((c + i) % 4, s)
        else task_yield_loop c n (i + 1) s := by
      simp only [task_yield_loop, hmod, touch_in s hin]
    rw [hstep]
    by_cases hact : (s.tcb ((c + i) % 4)).active = true
    · simp only [hact, if_true]
      refine ⟨trivial, Or.inr ⟨i, le_refl _, by push_cast; omega, rfl, hact, ?_⟩⟩
      intro k' h1 h2
      omega
    · simp only [hact, if_false]
      obtain ⟨h2, h3⟩ := ih (i + 1) (by omega)
      refine ⟨h2, ?_⟩
      have hact' : (s.tcb ((c + i) % 4)).active = false := by simpa using hact
      rcases h3 with ⟨hr, hall⟩ | ⟨k, hk1, hk2, hk3, hk4, hk5⟩
      · refine Or.inl ⟨hr, ?_⟩
        intro k h1 h2
        by_cases hk : k = i
        · subst hk; exact hact'
        · exact hall k (by omega) (by push_cast at h2; omega)
      · refine Or.inr ⟨k, by omega, by push_cast; omega, hk3, hk4, ?_⟩
        intro k' h1 h2
        by_cases hk : k' = i
        · subst hk; exact hact'
        · exact hk5 k' (by omega) h2

theorem tableAt_set_frame {α : Type} (g : TaskControlBlock → α)
    (t : Fin MAX_TASKS → TaskControlBlock) (i j : Int)
    (f : TaskControlBlock → TaskControlBlock) (hf : ∀ x, g (f x) = g x) :
    g (tableAt (tableSet t i f) j) = g (tableAt t j) := by
  by_cases hij : i = j
  · subst hij
    by_cases hi : 0 ≤ i ∧ i < 4
    · rw [tableAt_set_same t hi, hf]
    · rw [tableSet_out t hi]
  · rw [tableAt_set_ne t hij]

/-- Closed form of `task_yield` for a cursor inside the table. -/
theorem task_yield_eq (s : World) (cpu_esp : Nat)
    (hr : 0 ≤ s.current_task_idx ∧ s.current_task_idx < 4) :
    task_yield s cpu_esp =
      if (task_yield_loop s.current_task_idx MAX_TASKS 1 s).1 = -1 ∨
          (task_yield_loop s.current_task_idx MAX_TASKS 1 s).1 = s.current_task_idx then s
      else
        { s with
          current_task_idx := (task_yield_loop s.current_task_idx MAX_TASKS 1 s).1
          tasks := tableSet s.tasks s.current_task_idx (fun t => { t with esp := cpu_esp })
          log := s.log ++ [Event.context_switch (SavePtr.task_esp s.current_task_idx)
            (s.tcb (task_yield_loop s.current_task_idx MAX_TASKS 1 s).1).esp] } := by
  obtain ⟨h2, h3⟩ := task_yield_loop_spec s.current_task_idx hr.1 s MAX_TASKS 1 (by decide)
  have hne : s.current_task_idx ≠ -1 := by omega
  unfold task_yield
  rw [if_neg hne]
  simp only [h2]
  split
  · rfl
  · rename_i hcond
    have hin : 0 ≤ (task_yield_loop s.current_task_idx MAX_TASKS 1 s).1 ∧
        (task_yield_loop s.current_task_idx MAX_TASKS 1 s).1 < 4 := by
      rcases h3 with ⟨h, -⟩ | ⟨k, -, -, hk, -, -⟩
      · exact absurd (Or.inl h) hcond
      · rw [hk]; omega
    simp [context_switch, World.setTcb, World.touch, World.tcb, chk_in hin, chk_in hr]

/-- The cursor after `task_yield` is the first active slot after the old one. -/
theorem task_yield_next (s : World) (cpu_esp : Nat) (c : Int)
    (hc : s.current_task_idx = c) (hr : 0 ≤ c ∧ c < 4)
    (hother : ∃ j : Fin MAX_TASKS, (j : Int) ≠ c ∧ (s.tasks j).active = true) :
    ∃ k : Int, 1 ≤ k ∧ k < 4 ∧
        (task_yield s cpu_esp).current_task_idx = (c + k) % 4 ∧
        (s.tcb ((c + k) % 4)).active = true ∧
        ∀ i : Int, 1 ≤ i → i < k → (s.tcb ((c + i) % 4)).active = false := by
  subst hc
  obtain ⟨j, hj, hact⟩ := hother
  rw [← tableAt_coe s.tasks j] at hact
  have hjr : 0 ≤ (j : Int) ∧ (j : Int) < 4 := by
    have := j.isLt
    constructor
    · omega
    · show (j : Int) < ((4 : Nat) : Int)
      exact_mod_cast this
  generalize (j : Int) = j' at hj hact hjr
  have hj3 : j' = (s.current_task_idx + 1) % 4 ∨ j' = (s.current_task_idx + 2) % 4 ∨
      j' = (s.current_task_idx + 3) % 4 := by omega
  obtain ⟨-, h3⟩ := task_yield_loop_spec s.current_task_idx hr.1 s MAX_TASKS 1 (by decide)
  rw [task_yield_eq s cpu_esp hr]
  rcases h3 with ⟨-, hall⟩ | ⟨k, hk1, hk2, hk3, hk4, hk5⟩
  · exfalso
    rcases hj3 with h | h | h
    · have := hall 1 (by omega) (by decide); rw [← h] at this
      simp [World.tcb, hact] at this
    · have := hall 2 (by omega) (by decide); rw [← h] at this
      simp [World.tcb, hact] at this
    · have := hall 3 (by omega) (by decide); rw [← h] at this
      simp [World.tcb, hact] at this
  · have hk4' : k ≠ 4 := by
      rintro rfl
      rcases hj3 with h | h | h
      · have := hk5 1 (by omega) (by decide); rw [← h] at this
        simp [World.tcb, hact] at this
      · have := hk5 2 (by omega) (by decide); rw [← h] at this
        simp [World.tcb, hact] at this
      · have := hk5 3 (by omega) (by decide); rw [← h] at this
        simp [World.tcb, hact] at this
    have hk2' : k < 4 := by
      have : k < 1 + 4 := by exact_mod_cast hk2
      omega
    refine ⟨k, hk1, hk2', ?_, hk4, hk5⟩
    have hcond : ¬((task_yield_loop s.current_task_idx MAX_TASKS 1 s).1 = -1 ∨
        (task_yield_loop s.current_task_idx MAX_TASKS 1 s).1 = s.current_task_idx) := by
      rw [hk3]; omega
    rw [if_neg hcond]
    exact hk3

/-- No `active` flag is changed by `task_yield`. -/
theorem task_yield_active (s : World) (cpu_esp : Nat)
    (hr : 0 ≤ s.current_task_idx ∧ s.current_task_idx < 4) (i : Int) :
    ((task_yield s cpu_esp).tcb i).active = (s.tcb i).active := by
  rw [task_yield_eq s cpu_esp hr]
  split
  · rfl
  · exact tableAt_set_frame (fun t => t.active) s.tasks s.current_task_idx i
      (fun t => { t with esp := cpu_esp }) (fun _ => rfl)


/-- C1: from a cursor `c` with another active slot, `task_yield` moves the cursor to the
first active slot in the cyclic order `c+1, c+2, ...` (mod 4), every slot strictly between
being inactive; with slots 0,1,2 active, slot 3 inactive and cursor 0, three yields in a row
give the cursors 1, 2 and 0. -/
theorem task_yield_round_robin (s : World) (c : Int) (e1 e2 e3 : Nat)
    (hc : s.current_task_idx = c) (hr : 0 ≤ c ∧ c < 4)
    (hother : ∃ j : Fin MAX_TASKS, (j : Int) ≠ c ∧ (s.tasks j).active = true) :
    (∃ k : Int, 1 ≤ k ∧ k < 4 ∧
        (task_yield s e1).current_task_idx = (c + k) % 4 ∧
        (s.tcb ((c + k) % 4)).active = true ∧
        ∀ i : Int, 1 ≤ i → i < k → (s.tcb ((c + i) % 4)).active = false) ∧
    (c = 0 → (s.tasks 0).active = true → (s.tasks 1).active = true →
      (s.tasks 2).active = true → (s.tasks 3).active = false →
        (task_yield s e1).current_task_idx = 1 ∧
        (task_yield (task_yield s e1) e2).current_task_idx = 2 ∧
        (task_yield (task_yield (task_yield s e1) e2) e3).current_task_idx = 0) := by
  refine ⟨task_yield_next s e1 c hc hr hother, ?_⟩
  rintro rfl a0 a1 a2 a3
  have t0 : (s.tcb 0).active = true := a0
  have t1 : (s.tcb 1).active = true := a1
  have t2 : (s.tcb 2).active = true := a2
  have t3 : (s.tcb 3).active = false := a3
  -- first yield
  have y1 : (task_yield s e1).current_task_idx = 1 := by
    obtain ⟨k, k1, k2, kc, -, kmin⟩ := task_yield_next s e1 0 hc hr hother
    have hk : k = 1 := by
      by_contra hne
      have := kmin 1 (by omega) (by omega)
      simp [t1] at this
    rw [kc, hk]; rfl
  have r1 : 0 ≤ (task_yield s e1).current_task_idx ∧ (task_yield s e1).current_task_idx < 4 := by
    rw [y1]; decide
  have hr0 : 0 ≤ s.current_task_idx ∧ s.current_task_idx < 4 := by rw [hc]; exact hr
  have f1 : ∀ i, ((task_yield s e1).tcb i).active = (s.tcb i).active :=
    task_yield_active s e1 hr0
  -- second yield
  have y2 : (task_yield (task_yield s e1) e2).current_task_idx = 2 := by
    obtain ⟨k, k1, k2, kc, -, kmin⟩ := task_yield_next (task_yield s e1) e2 1 y1 (by decide)
      ⟨0, by decide, (f1 0).trans t0⟩
    have hk : k = 1 := by
      by_contra hne
      have := kmin 1 (by omega) (by omega)
      rw [f1] at this
      simp [t2] at this
    rw [kc, hk]; rfl
  have r2 : 0 ≤ (task_yield (task_yield s e1) e2).current_task_idx ∧
      (task_yield (task_yield s e1) e2).current_task_idx < 4 := by
    rw [y2]; decide
  have f2 : ∀ i, ((task_yield (task_yield s e1) e2).tcb i).active = (s.tcb i).active :=
    fun i => (task_yield_active (task_yield s e1) e2 r1 i).trans (f1 i)
  -- third yield
  have y3 : (task_yield (task_yield (task_yield s e1) e2) e3).current_task_idx = 0 := by
    obtain ⟨k, k1, k2, kc, kact, kmin⟩ :=
      task_yield_next (task_yield (task_yield s e1) e2) e3 2 y2 (by decide)
        ⟨0, by decide, (f2 0).trans t0⟩
    have hk : k = 2 := by
      have h3 : k = 1 ∨ k = 2 ∨ k = 3 := by omega
      rcases h3 with rfl | rfl | rfl
      · rw [f2] at kact
        simp [t3] at kact
      · rfl
      · have := kmin 2 (by omega) (by omega)
        rw [f2] at this
        simp [t0] at this
    rw [kc, hk]; rfl
  exact ⟨y1, y2, y3⟩

/-- Witness for C1: the demo world, cursor 0 with slots 0, 1, 2 active. -/
theorem task_yield_round_robin_witness :
    demo_running.current_task_idx = 0 ∧
    (task_yield demo_running 1).current_task_idx = 1 ∧
    (task_yield (task_yield demo_running 1) 2).current_task_idx = 2 ∧
    (task_yield (task_yield (task_yield demo_running 1) 2) 3).current_task_idx = 0 :=
  ⟨by decide,
   (task_yield_round_robin demo_running 0 1 2 3 (by decide) (by decide)
      ⟨1, by decide, by decide⟩).2 rfl (by decide) (by decide) (by decide) (by decide)⟩

/-- C3: when the cursor's slot is the only active slot, `task_yield` returns the world
it was given: same cursor, same table (every field of every slot, the saved stack pointer
of the current slot included), and nothing added to the log, so no context switch. -/
theorem task_yield_single_noop (s : World) (cpu_esp : Nat)
    (hr : 0 ≤ s.current_task_idx ∧ s.current_task_idx < 4)
    (_hcur : (s.tcb s.current_task_idx).active = true)
    (honly : ∀ j : Fin MAX_TASKS, (j : Int) ≠ s.current_task_idx → (s.tasks j).active = false) :
    task_yield s cpu_esp = s := by
  rw [task_yield_eq s cpu_esp hr]
  obtain ⟨-, h3⟩ := task_yield_loop_spec s.current_task_idx hr.1 s MAX_TASKS 1 (by decide)
  rcases h3 with ⟨h, -⟩ | ⟨k, -, -, hk3, hk4, -⟩
  · rw [if_pos (Or.inl h)]
  · have heq : (s.current_task_idx + k) % 4 = s.current_task_idx := by
      by_contra hne
      obtain ⟨l, hl1, hl2⟩ := slot?_in (show 0 ≤ (s.current_task_idx + k) % 4 ∧
        (s.current_task_idx + k) % 4 < 4 by omega)
      have := honly l (by rw [hl1]; exact hne)
      rw [← tableAt_coe s.tasks l, hl1] at this
      rw [World.tcb, this] at hk4
      exact Bool.noConfusion hk4
    rw [if_pos (Or.inr (hk3.trans heq))]


/-- Witness for C3: the demo world after Task A and Task B terminated; Task C in slot 2
is the only task left. -/
theorem task_yield_single_noop_witness :
    (task_terminate_self (task_terminate_self demo_running)).current_task_idx = 2 ∧
    task_yield (task_terminate_self (task_terminate_self demo_running)) 5 =
      task_terminate_self (task_terminate_self demo_running) :=
  ⟨by decide,
   task_yield_single_noop (task_terminate_self (task_terminate_self demo_running)) 5
      (by decide) (by decide) (by decide)⟩

/-! ### `task_terminate_self` -/

theorem first_active_loop_spec (t : Fin MAX_TASKS → TaskControlBlock) :
    ∀ (n : Nat) (i : Int), 0 ≤ i →
      (first_active_loop t n i = -1 ∧
          ∀ k : Int, i ≤ k → k < i + n → (tableAt t k).active = false) ∨
        (i ≤ first_active_loop t n i ∧ first_active_loop t n i < i + n ∧
          (tableAt t (first_active_loop t n i)).active = true ∧
          ∀ k : Int, i ≤ k → k < first_active_loop t n i → (tableAt t k).active = false) := by
  intro n
  induction n with
  | zero =>
    intro i _
    refine Or.inl ⟨rfl, ?_⟩
    intro k h1 h2
    simp at h2
    omega
  | succ n ih =>
    intro i hi
    by_cases hact : (tableAt t i).active = true
    · have hstep : first_active_loop t (n + 1) i = i := by
        simp [first_active_loop, hact]
      rw [hstep]
      refine Or.inr ⟨le_refl _, by push_cast; omega, hact, ?_⟩
      intro k h1 h2
      omega
    · have hact' : (tableAt t i).active = false := by simpa using hact
      have hstep : first_active_loop t (n + 1) i = first_active_loop t n (i + 1) := by
        simp [first_active_loop, hact']
      rw [hstep]
      rcases ih (i + 1) (by omega) with ⟨hr, hall⟩ | ⟨h1, h2, h3, h4⟩
      · refine Or.inl ⟨hr, ?_⟩
        intro k h1 h2
        by_cases hk : k = i
        · subst hk; exact hact'
        · exact hall k (by omega) (by push_cast at h2; omega)
      · refine Or.inr ⟨by omega, by push_cast; omega, h3, ?_⟩
        intro k h5 h6
        by_cases hk : k = i
        · subst hk; exact hact'
        · exact h4 k (by omega) h6


/-- Closed form of `task_terminate_self` when another task remains. -/
theorem task_terminate_self_eq (s : World)
    (hr : 0 ≤ s.current_task_idx ∧ s.current_task_idx < 4)
    (hnext : first_active_loop
      (tableSet s.tasks s.current_task_idx (fun t => { t with active := false })) MAX_TASKS 0 ≠ -1) :
    task_terminate_self s =
      { s with
        tasks := tableSet s.tasks s.current_task_idx (fun t => { t with active := false })
        current_task_idx := first_active_loop
          (tableSet s.tasks s.current_task_idx (fun t => { t with active := false })) MAX_TASKS 0
        live := s.live.erase (s.tcb s.current_task_idx).stack_base
        log := s.log ++
          [Event.terminal_writestring "SCHED: Terminating task '",
           Event.terminal_writestring (s.tcb s.current_task_idx).name,
           Event.terminal_writestring "' (ID: ",
           Event.terminal_writeint (s.tcb s.current_task_idx).id,
           Event.terminal_writestring ").\n",
           Event.kfree (s.tcb s.current_task_idx).stack_base,
           Event.context_switch SavePtr.null
             (s.tcb (first_active_loop
               (tableSet s.tasks s.current_task_idx
                 (fun t => { t with active := false })) MAX_TASKS 0)).esp]
        overrun := s.overrun ++ id_str_chk (s.tcb s.current_task_idx).id } := by
  have hne : s.current_task_idx ≠ -1 := by omega
  have hin := first_active_loop_spec
    (tableSet s.tasks s.current_task_idx (fun t => { t with active := false })) MAX_TASKS 0
    (le_refl _)
  have hrange : 0 ≤ first_active_loop
      (tableSet s.tasks s.current_task_idx (fun t => { t with active := false })) MAX_TASKS 0 ∧
      first_active_loop
      (tableSet s.tasks s.current_task_idx (fun t => { t with active := false })) MAX_TASKS 0 < 4 := by
    rcases hin with ⟨h, -⟩ | ⟨h1, h2, -, -⟩
    · exact absurd h hnext
    · exact ⟨h1, by simpa using h2⟩
  unfold task_terminate_self
  rw [if_neg hne]
  simp [terminal_writestring, terminal_writeint, World.touch, World.setTcb, kfree,
    context_switch, World.tcb, chk_in hr, chk_in hrange, hnext, tableAt_set_same _ hr]
  exact tableAt_set_frame (fun t => t.esp) s.tasks _ _ _ (fun _ => rfl)

/-- Some slot other than the cursor is active, so the scan of `task_terminate_self`
finds a task. -/
theorem first_active_after_release (s : World) (c : Int)
    (hother : ∃ j : Fin MAX_TASKS, (j : Int) ≠ c ∧ (s.tasks j).active = true) :
    first_active_loop (tableSet s.tasks c (fun t => { t with active := false })) MAX_TASKS 0
      ≠ -1 := by
  obtain ⟨j, hj, hact⟩ := hother
  intro hneg
  rcases first_active_loop_spec (tableSet s.tasks c (fun t => { t with active := false }))
      MAX_TASKS 0 (le_refl _) with ⟨-, hall⟩ | ⟨h1, -, -, -⟩
  · have hjr : 0 ≤ (j : Int) ∧ (j : Int) < 0 + (MAX_TASKS : Nat) := by
      have := j.isLt
      constructor
      · omega
      · simp only [zero_add]
        exact_mod_cast this
    have := hall j hjr.1 hjr.2
    rw [tableAt_set_ne _ (Ne.symm hj), tableAt_coe, hact] at this
    exact Bool.noConfusion this
  · omega

/-- C2: with cursor `c` and another active slot, `task_terminate_self` clears the `active`
flag of slot `c` and changes nothing else in the table, frees the stack of slot `c` exactly
once (the one `kfree` of the emitted log), and moves the cursor to the lowest-index slot
other than `c` that was active at call time (scan from slot 0, not from `c`), which is the
lowest-index active slot of the remaining table; it calls `context_switch` with a null save
target, and no saved stack pointer, the counter and memory do not change. -/
theorem task_terminate_self_switch (s : World) (c : Int)
    (hc : s.current_task_idx = c) (hr : 0 ≤ c ∧ c < 4)
    (hother : ∃ j : Fin MAX_TASKS, (j : Int) ≠ c ∧ (s.tasks j).active = true) :
    (task_terminate_self s).tcb c = { s.tcb c with active := false } ∧
    (∀ j : Fin MAX_TASKS, (j : Int) ≠ c → (task_terminate_self s).tasks j = s.tasks j) ∧
    (0 ≤ (task_terminate_self s).current_task_idx ∧
      (task_terminate_self s).current_task_idx < 4 ∧
      (task_terminate_self s).current_task_idx ≠ c ∧
      (s.tcb (task_terminate_self s).current_task_idx).active = true ∧
      ∀ k : Int, 0 ≤ k → k < (task_terminate_self s).current_task_idx → k ≠ c →
        (s.tcb k).active = false) ∧
    (∀ n : Fin MAX_TASKS, (n : Int) ≠ c → (s.tasks n).active = true →
      (∀ k : Fin MAX_TASKS, k < n → (k : Int) ≠ c → (s.tasks k).active = false) →
      (task_terminate_self s).current_task_idx = (n : Int)) ∧
    (((task_terminate_self s).tcb (task_terminate_self s).current_task_idx).active = true ∧
      ∀ k : Int, 0 ≤ k → k < (task_terminate_self s).current_task_idx →
        ((task_terminate_self s).tcb k).active = false) ∧
    (task_terminate_self s).log = s.log ++
      [Event.terminal_writestring "SCHED: Terminating task '",
       Event.terminal_writestring (s.tcb c).name,
       Event.terminal_writestring "' (ID: ",
       Event.terminal_writeint (s.tcb c).id,
       Event.terminal_writestring ").\n",
       Event.kfree (s.tcb c).stack_base,
       Event.context_switch SavePtr.null
         (s.tcb (task_terminate_self s).current_task_idx).esp] ∧
    (task_terminate_self s).live = s.live.erase (s.tcb c).stack_base ∧
    (task_terminate_self s).next_task_id = s.next_task_id ∧
    (task_terminate_self s).mem = s.mem ∧
    (∀ j : Fin MAX_TASKS, ((task_terminate_self s).tasks j).esp = (s.tasks j).esp) := by
  subst hc
  have hnext := first_active_after_release s s.current_task_idx hother
  rw [task_terminate_self_eq s hr hnext]
  rcases first_active_loop_spec
      (tableSet s.tasks s.current_task_idx (fun t => { t with active := false }))
      MAX_TASKS 0 (le_refl _) with ⟨h, -⟩ | ⟨h1, h2, h3, h4⟩
  · exact absurd h hnext
  · have h2' : first_active_loop
        (tableSet s.tasks s.current_task_idx (fun t => { t with active := false }))
        MAX_TASKS 0 < 4 := by simpa using h2
    have hne : first_active_loop
        (tableSet s.tasks s.current_task_idx (fun t => { t with active := false }))
        MAX_TASKS 0 ≠ s.current_task_idx := by
      intro e
      rw [e, tableAt_set_same _ hr] at h3
      exact Bool.false_ne_true h3
    have hpre : ∀ k : Int, k ≠ s.current_task_idx →
        (tableAt (tableSet s.tasks s.current_task_idx
          (fun t => { t with active := false })) k) = tableAt s.tasks k :=
      fun k hk => tableAt_set_ne _ (Ne.symm hk) _
    refine ⟨?_, ?_, ⟨h1, h2', hne, ?_, ?_⟩, ?_, ⟨h3, fun k hk1 hk2 => h4 k hk1 hk2⟩,
      rfl, rfl, rfl, rfl, ?_⟩
    · simp only [World.tcb]
      rw [tableAt_set_same _ hr]
    · intro j hj
      simp only []
      exact tableSet_fin_ne _ _ _ _ hj
    · simp only [World.tcb]
      rw [← hpre _ hne]
      exact h3
    · intro k hk1 hk2 hkc
      simp only [World.tcb]
      rw [← hpre k hkc]
      exact h4 k hk1 hk2
    · intro n hn hact hlow
      simp only []
      have hn4 : n.val < 4 := n.isLt
      obtain ⟨l, hl1, -⟩ := slot?_in ⟨h1, h2'⟩
      have hl4 : l.val < 4 := l.isLt
      have hlv : ((l.val : Nat) : Int) = first_active_loop
          (tableSet s.tasks s.current_task_idx (fun t => { t with active := false }))
          MAX_TASKS 0 := hl1
      show first_active_loop
          (tableSet s.tasks s.current_task_idx (fun t => { t with active := false }))
          MAX_TASKS 0 = ((n.val : Nat) : Int)
      rcases Nat.lt_trichotomy l.val n.val with hlt | heq | hgt
      · have e1 := hlow l (Fin.lt_def.2 hlt) (by rw [hl1]; exact hne)
        have e2 := h3
        rw [hpre _ hne, ← hl1, tableAt_coe, e1] at e2
        exact Bool.noConfusion e2
      · omega
      · have e1 := h4 ((n.val : Nat) : Int) (by omega) (by omega)
        have e3 : tableAt s.tasks ((n.val : Nat) : Int) = s.tasks n := tableAt_coe s.tasks n
        rw [hpre _ hn, e3, hact] at e1
        exact Bool.noConfusion e1
    · intro j
      simp only []
      rw [← tableAt_coe (tableSet s.tasks s.current_task_idx _) j, ← tableAt_coe s.tasks j]
      exact tableAt_set_frame (fun t => t.esp) s.tasks _ _ _ (fun _ => rfl)

/-- Witness for C2: Task A of the demo world terminates; slot 1 is the lowest other active
slot and the cursor moves to it. -/
theorem task_terminate_self_switch_witness :
    demo_running.current_task_idx = 0 ∧
    (demo_running.tasks 1).active = true ∧
    (task_terminate_self demo_running).current_task_idx = 1 :=
  ⟨by decide, by decide,
   (task_terminate_self_switch demo_running 0 (by decide) (by decide)
      ⟨1, by decide, by decide⟩).2.2.2.1 1 (by decide) (by decide) (by decide)⟩

/-! ### Slot allocation and `task_create` -/

theorem find_free_tcb_slot_loop_spec (t : Fin MAX_TASKS → TaskControlBlock) :
    ∀ (n : Nat) (i : Int), 0 ≤ i →
      (find_free_tcb_slot_loop t n i = -1 ∧
          ∀ k : Int, i ≤ k → k < i + n → (tableAt t k).active = true) ∨
        (i ≤ find_free_tcb_slot_loop t n i ∧ find_free_tcb_slot_loop t n i < i + n ∧
          (tableAt t (find_free_tcb_slot_loop t n i)).active = false ∧
          ∀ k : Int, i ≤ k → k < find_free_tcb_slot_loop t n i →
            (tableAt t k).active = true) := by
  intro n
  induction n with
  | zero =>
    intro i _
    refine Or.inl ⟨rfl, ?_⟩
    intro k h1 h2
    simp at h2
    omega
  | succ n ih =>
    intro i hi
    by_cases hact : (tableAt t i).active = true
    · have hstep : find_free_tcb_slot_loop t (n + 1) i = find_free_tcb_slot_loop t n (i + 1) := by
        simp [find_free_tcb_slot_loop, hact]
      rw [hstep]
      rcases ih (i + 1) (by omega) with ⟨hr, hall⟩ | ⟨h1, h2, h3, h4⟩
      · refine Or.inl ⟨hr, ?_⟩
        intro k h1 h2
        by_cases hk : k = i
        · subst hk; exact hact
        · exact hall k (by omega) (by push_cast at h2; omega)
      · refine Or.inr ⟨by omega, by push_cast; omega, h3, ?_⟩
        intro k h5 h6
        by_cases hk : k = i
        · subst hk; exact hact
        · exact h4 k (by omega) h6
    · have hact' : (tableAt t i).active = false := by simpa using hact
      have hstep : find_free_tcb_slot_loop t (n + 1) i = i := by
        simp [find_free_tcb_slot_loop, hact']
      rw [hstep]
      refine Or.inr ⟨le_refl _, by push_cast; omega, hact', ?_⟩
      intro k h1 h2
      omega

/-- The result of `find_free_tcb_slot`: `-1` with every slot active, or the lowest
inactive slot. -/
theorem find_free_tcb_slot_spec (s : World) :
    (find_free_tcb_slot s = -1 ∧ ∀ j : Fin MAX_TASKS, (s.tasks j).active = true) ∨
      (0 ≤ find_free_tcb_slot s ∧ find_free_tcb_slot s < 4 ∧
        (s.tcb (find_free_tcb_slot s)).active = false ∧
        ∀ k : Int, 0 ≤ k → k < find_free_tcb_slot s → (s.tcb k).active = true) := by
  rcases find_free_tcb_slot_loop_spec s.tasks MAX_TASKS 0 (le_refl _) with
    ⟨h, hall⟩ | ⟨h1, h2, h3, h4⟩
  · refine Or.inl ⟨h, ?_⟩
    intro j
    have hj := j.isLt
    have := hall j (by omega) (by simp only [zero_add]; exact_mod_cast hj)
    rwa [tableAt_coe] at this
  · exact Or.inr ⟨h1, by simpa using h2, h3, h4⟩

theorem tableSet_tableSet (t : Fin MAX_TASKS → TaskControlBlock) (i : Int)
    (f g : TaskControlBlock → TaskControlBlock) :
    tableSet (tableSet t i f) i g = tableSet t i (fun x => g (f x)) := by
  by_cases hi : 0 ≤ i ∧ i < 4
  · obtain ⟨k, rfl, -⟩ := slot?_in hi
    simp [tableSet_coe]
  · simp [tableSet_out _ hi]

theorem kmalloc_fail (s : World) (size a : Nat) (h : (kmalloc s size a).1 = 0) :
    kmalloc s size a = (0, { s with log := s.log ++ [Event.kmalloc size 0] }) := by
  unfold kmalloc at h ⊢
  split
  · rename_i hc
    rw [if_pos hc] at h
    exact absurd h hc.1
  · rfl

theorem kmalloc_ok (s : World) (size a : Nat) (h : (kmalloc s size a).1 ≠ 0) :
    kmalloc s size a =
      (a, { s with live := a :: s.live, log := s.log ++ [Event.kmalloc size a] }) ∧
    a ≠ 0 ∧ a + size ≤ U32 ∧ a ∉ s.live := by
  unfold kmalloc at h ⊢
  split
  · rename_i hc
    exact ⟨rfl, hc⟩
  · rename_i hc
    rw [if_neg hc] at h
    exact absurd rfl h

/-- A slot index always fits `id_str`. -/
theorem id_str_chk_slot {i : Int} (h : 0 ≤ i ∧ i < 4) : id_str_chk i = [] := by
  have : fits_id_str i = true := by
    unfold fits_id_str
    exact decide_eq_true ⟨by omega, by omega⟩
  simp [id_str_chk, this]

/-- Closed form of `task_create` on a full table. -/
theorem task_create_eq_full (s : World) (entry_point : Nat) (name : String) (a : Nat)
    (h : find_free_tcb_slot s = -1) :
    task_create s entry_point name a =
      (-1, { s with log := s.log ++
        [Event.terminal_writestring "SCHED: No free task slots available.\n"] }) := by
  unfold task_create
  simp [h, terminal_writestring]

/-- Closed form of `task_create` when the allocator returns `NULL`. -/
theorem task_create_eq_fail (s : World) (entry_point : Nat) (name : String) (a : Nat)
    (hslot : 0 ≤ find_free_tcb_slot s ∧ find_free_tcb_slot s < 4)
    (h : (kmalloc s TASK_STACK_SIZE a).1 = 0) :
    task_create s entry_point name a =
      (-1, { s with
        tasks := tableSet s.tasks (find_free_tcb_slot s) (fun t => { t with stack_base := 0 })
        log := s.log ++ [Event.kmalloc TASK_STACK_SIZE 0,
          Event.terminal_writestring "SCHED: Failed to allocate stack for new task.\n"] }) := by
  have hne : find_free_tcb_slot s ≠ -1 := by omega
  unfold task_create
  simp [hne, kmalloc_fail s _ a h, terminal_writestring, World.setTcb, World.tcb,
    tableAt_set_same _ hslot, chk_in hslot]

/-- Closed form of `task_create` when the allocator returns the region at `a`. -/
theorem task_create_eq_ok (s : World) (entry_point : Nat) (name : String) (a : Nat)
    (hslot : 0 ≤ find_free_tcb_slot s ∧ find_free_tcb_slot s < 4)
    (h : (kmalloc s TASK_STACK_SIZE a).1 ≠ 0) :
    task_create s entry_point name a =
      (s.next_task_id, { s with
        tasks := tableSet s.tasks (find_free_tcb_slot s) (fun t =>
          { t with
            stack_base := a
            esp := (setup_task_stack s.mem a entry_point).1
            active := true
            id := s.next_task_id
            name := name })
        next_task_id := wrap_int (s.next_task_id + 1)
        mem := (setup_task_stack s.mem a entry_point).2
        live := a :: s.live
        log := s.log ++ [Event.kmalloc TASK_STACK_SIZE a,
          Event.terminal_writestring "SCHED: Created task '",
          Event.terminal_writestring name,
          Event.terminal_writestring "' (ID: ",
          Event.terminal_writeint s.next_task_id,
          Event.terminal_writestring ") in slot ",
          Event.terminal_writeint (find_free_tcb_slot s),
          Event.terminal_writestring ".\n"]
        overrun := s.overrun ++ id_str_chk s.next_task_id }) := by
  have hne : find_free_tcb_slot s ≠ -1 := by omega
  obtain ⟨hk, ha, -, -⟩ := kmalloc_ok s _ a h
  unfold task_create
  simp [hne, hk, ha, terminal_writestring, terminal_writeint, World.setTcb, World.tcb,
    tableAt_set_same _ hslot, chk_in hslot, tableSet_tableSet, id_str_chk_slot hslot]

/-- State of `task_create` on a table with every slot active. -/
theorem task_create_full_state (s : World) (entry_point : Nat) (name : String) (a : Nat)
    (hfull : ∀ j : Fin MAX_TASKS, (s.tasks j).active = true) :
    (task_create s entry_point name a).1 = -1 ∧
    (task_create s entry_point name a).2.log =
      s.log ++ [Event.terminal_writestring "SCHED: No free task slots available.\n"] ∧
    (task_create s entry_point name a).2.tasks = s.tasks ∧
    (task_create s entry_point name a).2.current_task_idx = s.current_task_idx ∧
    (task_create s entry_point name a).2.next_task_id = s.next_task_id ∧
    (task_create s entry_point name a).2.live = s.live ∧
    (task_create s entry_point name a).2.mem = s.mem := by
  have hslot : find_free_tcb_slot s = -1 := by
    rcases find_free_tcb_slot_spec s with ⟨h, -⟩ | ⟨h1, h2, h3, -⟩
    · exact h
    · obtain ⟨k, hk1, -⟩ := slot?_in ⟨h1, h2⟩
      have := hfull k
      rw [← tableAt_coe s.tasks k, hk1] at this
      rw [World.tcb, this] at h3
      exact Bool.noConfusion h3
  rw [task_create_eq_full s entry_point name a hslot]
  exact ⟨rfl, rfl, rfl, rfl, rfl, rfl, rfl⟩

/-- C4: on a table with all four slots active, `task_create` returns `-1`, logs only the
"no free slot" message (so the allocator is not called), and leaves the table, the cursor,
the next-identity counter, the live regions and memory as they were. -/
theorem task_create_full_unchanged (s : World) (entry_point : Nat) (name : String) (a : Nat)
    (hfull : ∀ j : Fin MAX_TASKS, (s.tasks j).active = true) :
    (task_create s entry_point name a).1 = -1 ∧
    (task_create s entry_point name a).2.log =
      s.log ++ [Event.terminal_writestring "SCHED: No free task slots available.\n"] ∧
    (task_create s entry_point name a).2.tasks = s.tasks ∧
    (task_create s entry_point name a).2.current_task_idx = s.current_task_idx ∧
    (task_create s entry_point name a).2.next_task_id = s.next_task_id ∧
    (task_create s entry_point name a).2.live = s.live ∧
    (task_create s entry_point name a).2.mem = s.mem :=
  task_create_full_state s entry_point name a hfull

/-- Witness for C4: the demo table filled up by a fourth task. -/
theorem task_create_full_unchanged_witness :
    (∀ j : Fin MAX_TASKS,
      ((task_create demo_running 0x100300 "Task D" 0x203000).2.tasks j).active = true) ∧
    (task_create (task_create demo_running 0x100300 "Task D" 0x203000).2
      0x100400 "Task E" 0x204000).1 = -1 :=
  ⟨by decide,
   (task_create_full_unchanged (task_create demo_running 0x100300 "Task D" 0x203000).2
      0x100400 "Task E" 0x204000 (by decide)).1⟩

/-- Counterexample to C5 as stated: after Task A of the demo has terminated, slot 0 is free
and still holds the address of its released stack; a `task_create` whose allocation fails
returns `-1` and overwrites that `stack_base` with `NULL`. -/
theorem alloc_failure_overwrites_stack_base :
    (∃ j : Fin MAX_TASKS, ((task_terminate_self demo_running).tasks j).active = false) ∧
    (kmalloc (task_terminate_self demo_running) TASK_STACK_SIZE 0).1 = 0 ∧
    (task_create (task_terminate_self demo_running) 0x100300 "Task D" 0).1 = -1 ∧
    ((task_terminate_self demo_running).tasks 0).stack_base = 0x200000 ∧
    ((task_create (task_terminate_self demo_running) 0x100300 "Task D" 0).2.tasks 0).stack_base
      = 0 := by
  refine ⟨⟨0, ?_⟩, ?_, ?_, ?_, ?_⟩ <;> decide

/-- C5 (amended): with an inactive slot and a failing stack allocation, `task_create`
returns `-1` and changes nothing but the `stack_base` of the selected slot (the lowest
inactive one), which becomes `NULL`: every other field of every slot, every `active` flag,
the cursor, the next-identity counter, the live regions and memory keep their values. -/
theorem task_create_alloc_failure (s : World) (entry_point : Nat) (name : String) (a : Nat)
    (hfree : ∃ j : Fin MAX_TASKS, (s.tasks j).active = false)
    (hfail : (kmalloc s TASK_STACK_SIZE a).1 = 0) :
    (task_create s entry_point name a).1 = -1 ∧
    (0 ≤ find_free_tcb_slot s ∧ find_free_tcb_slot s < 4 ∧
      (s.tcb (find_free_tcb_slot s)).active = false ∧
      ∀ k : Int, 0 ≤ k → k < find_free_tcb_slot s → (s.tcb k).active = true) ∧
    (∀ j : Fin MAX_TASKS, (task_create s entry_point name a).2.tasks j =
      if (j : Int) = find_free_tcb_slot s then { s.tasks j with stack_base := 0 }
      else s.tasks j) ∧
    (task_create s entry_point name a).2.current_task_idx = s.current_task_idx ∧
    (task_create s entry_point name a).2.next_task_id = s.next_task_id ∧
    (task_create s entry_point name a).2.live = s.live ∧
    (task_create s entry_point name a).2.mem = s.mem := by
  obtain ⟨j0, hj0⟩ := hfree
  rcases find_free_tcb_slot_spec s with ⟨-, hall⟩ | ⟨h1, h2, h3, h4⟩
  · rw [hall j0] at hj0
    exact Bool.noConfusion hj0
  · rw [task_create_eq_fail s entry_point name a ⟨h1, h2⟩ hfail]
    refine ⟨rfl, ⟨h1, h2, h3, h4⟩, ?_, rfl, rfl, rfl, rfl⟩
    intro j
    simp only []
    rw [← tableAt_coe (tableSet s.tasks (find_free_tcb_slot s) _) j]
    by_cases hj : (j : Int) = find_free_tcb_slot s
    · rw [if_pos hj, ← hj, tableAt_set_same _ (by rw [hj]; exact ⟨h1, h2⟩), tableAt_coe]
    · rw [if_neg hj, tableAt_set_ne _ (Ne.symm hj), tableAt_coe]

/-- Witness for C5 (amended): the failing creation after Task A terminated. -/
theorem task_create_alloc_failure_witness :
    (task_create (task_terminate_self demo_running) 0x100300 "Task D" 0).2.next_task_id = 3 :=
  (task_create_alloc_failure (task_terminate_self demo_running) 0x100300 "Task D" 0
    ⟨0, by decide⟩ (by decide)).2.2.2.2.1.trans (by decide)

theorem wrap_int_id (x : Int) (h1 : -2147483648 ≤ x) (h2 : x < 2147483648) : wrap_int x = x := by
  unfold wrap_int
  omega

/-- With slots `0..k-1` active and the rest inactive, a successful `task_create` takes
slot `k` and returns the counter. -/
theorem task_create_next_slot (s : World) (k : Nat) (hk : k < 4)
    (hact : ∀ j : Fin MAX_TASKS, (s.tasks j).active = decide (j.val < k))
    (entry_point : Nat) (name : String) (a : Nat)
    (hok : (find_free_tcb_slot s == -1 || (kmalloc s TASK_STACK_SIZE a).1 != 0) = true) :
    (task_create s entry_point name a).1 = s.next_task_id ∧
    (task_create s entry_point name a).2.next_task_id = wrap_int (s.next_task_id + 1) ∧
    ∀ j : Fin MAX_TASKS,
      ((task_create s entry_point name a).2.tasks j).active = decide (j.val < k + 1) := by
  have hslot : find_free_tcb_slot s = k := by
    rcases find_free_tcb_slot_spec s with ⟨-, hall⟩ | ⟨h1, h2, h3, h4⟩
    · have := hall ⟨k, hk⟩
      rw [hact] at this
      simp at this
    · obtain ⟨l, hl1, -⟩ := slot?_in ⟨h1, h2⟩
      have e1 := hact l
      rw [← tableAt_coe s.tasks l, hl1] at e1
      rw [World.tcb, e1] at h3
      have hlk : ¬ l.val < k := by simpa using h3
      have hle : find_free_tcb_slot s ≤ k := by
        by_contra hgt
        have e2 := h4 k (by omega) (by omega)
        have e3 := hact ⟨k, hk⟩
        rw [← tableAt_coe s.tasks ⟨k, hk⟩] at e3
        rw [World.tcb] at e2
        simp only [Fin.val_mk] at e3
        rw [e2] at e3
        simp at e3
      have : ((l.val : Nat) : Int) = find_free_tcb_slot s := hl1
      omega
  have hin : 0 ≤ find_free_tcb_slot s ∧ find_free_tcb_slot s < 4 := by omega
  have hk' : (kmalloc s TASK_STACK_SIZE a).1 ≠ 0 := by
    have hne : find_free_tcb_slot s ≠ -1 := by omega
    simpa [hne] using hok
  rw [task_create_eq_ok s entry_point name a hin hk']
  refine ⟨rfl, rfl, ?_⟩
  intro j
  simp only []
  rw [← tableAt_coe (tableSet s.tasks (find_free_tcb_slot s) _) j]
  by_cases hj : (j : Int) = find_free_tcb_slot s
  · rw [← hj, tableAt_set_same _ (by rw [hj]; exact hin)]
    have : j.val = k := by
      have : ((j.val : Nat) : Int) = (k : Int) := hj.trans hslot
      exact_mod_cast this
    simp [this]
  · rw [tableAt_set_ne _ (Ne.symm hj), tableAt_coe, hact]
    have : j.val ≠ k := by
      intro h
      apply hj
      rw [hslot]
      show ((j.val : Nat) : Int) = (k : Int)
      exact_mod_cast h
    have e1 : (j.val < k) ↔ (j.val < k + 1) := by omega
    simp [e1]

/-- Return values of a run of `task_create` calls that starts with slots `0..k-1` active
and the counter at `k`. -/
theorem task_create_seq_returns :
    ∀ (reqs : List (Nat × String × Nat)) (s : World) (k : Nat), k ≤ 4 →
      s.next_task_id = k →
      (∀ j : Fin MAX_TASKS, (s.tasks j).active = decide (j.val < k)) →
      allocs_succeed s reqs = true →
      (task_create_seq s reqs).1 =
        (List.range reqs.length).map
          (fun i => if k + i < 4 then ((k + i : Nat) : Int) else -1) := by
  intro reqs
  induction reqs with
  | nil => intro s k _ _ _ _; rfl
  | cons q rest ih =>
    intro s k hk hnext hact hok
    simp only [allocs_succeed, Bool.and_eq_true] at hok
    obtain ⟨hok1, hok2⟩ := hok
    simp only [task_create_seq, List.length_cons, List.range_succ_eq_map, List.map_cons,
      List.map_map]
    by_cases hk4 : k < 4
    · obtain ⟨e1, e2, e3⟩ := task_create_next_slot s k hk4 hact q.1 q.2.1 q.2.2 hok1
      have hn : (task_create s q.1 q.2.1 q.2.2).2.next_task_id = ((k + 1 : Nat) : Int) := by
        rw [e2, hnext, wrap_int_id _ (by omega) (by omega)]
        push_cast; rfl
      rw [ih _ (k + 1) (by omega) hn e3 hok2, e1, hnext]
      simp only [add_zero, hk4, if_true]
      congr 1
      apply List.map_congr_left
      intro i _
      simp only [Function.comp, Nat.succ_eq_add_one]
      have : k + 1 + i = k + (i + 1) := by omega
      rw [this]
    · have hk4' : k = 4 := by omega
      have hfull : ∀ j : Fin MAX_TASKS, (s.tasks j).active = true := by
        intro j
        rw [hact]
        have hj : j.val < 4 := j.isLt
        simp; omega
      obtain ⟨f1, -, f3, -, f5, -, -⟩ :=
        task_create_full_state s q.1 q.2.1 q.2.2 hfull
      have hact' : ∀ j : Fin MAX_TASKS,
          ((task_create s q.1 q.2.1 q.2.2).2.tasks j).active = decide (j.val < k) := by
        intro j; rw [f3]; exact hact j
      rw [ih _ k hk (f5.trans hnext) hact' hok2, f1]
      have hnot : ¬ k + 0 < 4 := by omega
      simp only [hnot, if_false]
      congr 1
      apply List.map_congr_left
      intro i _
      simp only [Function.comp, Nat.succ_eq_add_one]
      have h1 : ¬ k + i < 4 := by omega
      have h2 : ¬ k + (i + 1) < 4 := by omega
      simp only [h1, h2, if_false]

theorem active_count_le (s : World) : active_count s ≤ MAX_TASKS := by
  unfold active_count
  exact (List.countP_le_length _).trans (by simp)

/-- C6: from a table with every slot inactive and the counter at 0, in a run of
`task_create` calls whose allocations all succeed, each of the first four calls returns a
non-negative identity greater than every identity returned before it, the identities of
the first four calls are pairwise distinct, every later call returns `-1`, and after any
number of calls at most four slots are active. -/
theorem task_create_seq_identities (s : World) (reqs : List (Nat × String × Nat))
    (hinact : ∀ j : Fin MAX_TASKS, (s.tasks j).active = false)
    (hnext : s.next_task_id = 0)
    (hok : allocs_succeed s reqs = true) :
    (∀ j : Nat, j < reqs.length → j < 4 →
      ∃ id : Int, (task_create_seq s reqs).1[j]? = some id ∧ 0 ≤ id ∧
        ∀ (i : Nat) (id' : Int), i < j → (task_create_seq s reqs).1[i]? = some id' → id' < id) ∧
    (∀ i j : Nat, i < j → j < reqs.length → j < 4 →
      (task_create_seq s reqs).1[i]? ≠ (task_create_seq s reqs).1[j]?) ∧
    (∀ j : Nat, 4 ≤ j → j < reqs.length → (task_create_seq s reqs).1[j]? = some (-1)) ∧
    (∀ m : Nat, active_count (task_create_seq s (reqs.take m)).2 ≤ MAX_TASKS) := by
  have hact : ∀ j : Fin MAX_TASKS, (s.tasks j).active = decide (j.val < 0) := by
    intro j; rw [hinact]; simp
  have hret := task_create_seq_returns reqs s 0 (by decide) (by simpa using hnext) hact hok
  have hget : ∀ j : Nat, j < reqs.length →
      (task_create_seq s reqs).1[j]? = some (if j < 4 then (j : Int) else -1) := by
    intro j hj
    rw [hret]
    simp [List.getElem?_map, List.getElem?_range hj]
  refine ⟨?_, ?_, ?_, fun m => active_count_le _⟩
  · intro j hj hj4
    refine ⟨(j : Int), ?_, by omega, ?_⟩
    · rw [hget j hj, if_pos hj4]
    · intro i id' hij hi
      rw [hget i (by omega), if_pos (by omega)] at hi
      have : (i : Int) = id' := by simpa using hi
      omega
  · intro i j hij hj hj4
    rw [hget i (by omega), hget j hj, if_pos (by omega), if_pos hj4]
    intro h
    have : (i : Int) = (j : Int) := by simpa using h
    omega
  · intro j hj4 hj
    rw [hget j hj, if_neg (by omega)]

/-- Witness for C6: five creations on the fresh world; the fifth finds the table full. -/
theorem task_create_seq_identities_witness :
    fresh.next_task_id = 0 ∧
    (task_create_seq fresh
      [(0x100000, "T0", 0x200000), (0x100000, "T1", 0x201000), (0x100000, "T2", 0x202000),
       (0x100000, "T3", 0x203000), (0x100000, "T4", 0x204000)]).1[4]? = some (-1) :=
  ⟨by decide,
   (task_create_seq_identities fresh
      [(0x100000, "T0", 0x200000), (0x100000, "T1", 0x201000), (0x100000, "T2", 0x202000),
       (0x100000, "T3", 0x203000), (0x100000, "T4", 0x204000)]
      (by decide) (by decide) (by decide)).2.2.1 4 (by decide) (by decide)⟩

/-! ### The identity counter along a run -/

theorem task_yield_loop_frame (c : Int) :
    ∀ (n : Nat) (i : Int) (s : World),
      (task_yield_loop c n i s).2 = { s with oob := (task_yield_loop c n i s).2.oob } := by
  intro n
  induction n with
  | zero => intro i s; rfl
  | succ n ih =>
    intro i s
    simp only [task_yield_loop]
    split
    · rfl
    · rw [ih]
      rfl

theorem task_yield_next_task_id (s : World) (cpu_esp : Nat) :
    (task_yield s cpu_esp).next_task_id = s.next_task_id := by
  unfold task_yield
  have h := task_yield_loop_frame s.current_task_idx MAX_TASKS 1 s
  split
  · rfl
  · simp only []
    split
    · rw [h]
    · rw [h]
      simp [context_switch, World.setTcb, World.touch]

theorem cmd_task_yield_next_task_id (s : World) (cpu_esp : Nat) :
    (cmd_task_yield s cpu_esp).next_task_id = s.next_task_id := by
  unfold cmd_task_yield
  split
  · rfl
  · exact task_yield_next_task_id s cpu_esp

theorem terminal_writestring_next_task_id (s : World) (text : String) :
    (terminal_writestring s text).next_task_id = s.next_task_id := rfl

theorem terminal_writeint_next_task_id (s : World) (n : Int) :
    (terminal_writeint s n).next_task_id = s.next_task_id := rfl

theorem kfree_next_task_id (s : World) (p : Nat) :
    (kfree s p).next_task_id = s.next_task_id := rfl

theorem hlt_next_task_id (s : World) : (hlt s).next_task_id = s.next_task_id := rfl

theorem touch_next_task_id (s : World) (i : Int) :
    (s.touch i).next_task_id = s.next_task_id := rfl

theorem setTcb_next_task_id (s : World) (i : Int) (f : TaskControlBlock → TaskControlBlock) :
    (s.setTcb i f).next_task_id = s.next_task_id := rfl

theorem context_switch_next_task_id (s : World) (p : SavePtr) (n e : Nat) :
    (context_switch s p n e).next_task_id = s.next_task_id := by
  unfold context_switch
  split <;> rfl

theorem task_terminate_self_next_task_id (s : World) :
    (task_terminate_self s).next_task_id = s.next_task_id := by
  unfold task_terminate_self
  split
  · rfl
  · simp only [context_switch_next_task_id, touch_next_task_id]
    split <;>
      simp only [hlt_next_task_id, terminal_writestring_next_task_id, kfree_next_task_id,
        setTcb_next_task_id, terminal_writeint_next_task_id, touch_next_task_id]

theorem list_loop_next_task_id :
    ∀ (n : Nat) (i : Int) (s : World), (list_loop n i s).next_task_id = s.next_task_id := by
  intro n
  induction n with
  | zero => intro i s; rfl
  | succ n ih =>
    intro i s
    simp only [list_loop]
    split
    · rw [ih]; rfl
    · rw [ih]

theorem cmd_list_tasks_next_task_id (s : World) :
    (cmd_list_tasks s).next_task_id = s.next_task_id := by
  unfold cmd_list_tasks
  simp only []
  split
  · simp only [terminal_writestring, terminal_writeint, World.touch]
    exact list_loop_next_task_id _ _ _
  · simp only [terminal_writestring]
    exact list_loop_next_task_id _ _ _

theorem cleanup_loop_next_task_id :
    ∀ (n : Nat) (i : Int) (s : World), (cleanup_loop n i s).next_task_id = s.next_task_id := by
  intro n
  induction n with
  | zero => intro i s; rfl
  | succ n ih =>
    intro i s
    simp only [cleanup_loop]
    split
    · rw [ih]; rfl
    · rw [ih]

theorem scheduler_extension_cleanup_next_task_id (s : World) :
    (scheduler_extension_cleanup s).next_task_id = s.next_task_id := by
  unfold scheduler_extension_cleanup
  simp only [terminal_writestring]
  exact cleanup_loop_next_task_id _ _ _

/-- C8 (code at the failing input): in the running demo world the cursor is slot 0 and
slot 0 is active; after `scheduler_extension_cleanup` slot 0 is inactive and the cursor is
still 0, so the cursor points to an inactive slot. -/
theorem cleanup_leaves_cursor_on_inactive_slot :
    demo_running.current_task_idx = 0 ∧
    (demo_running.tasks 0).active = true ∧
    (run demo_image fresh
      [Op.cmd_scheduler_start 0x200000 0x201000 0x202000,
       Op.scheduler_extension_cleanup]).current_task_idx = 0 ∧
    ((run demo_image fresh
      [Op.cmd_scheduler_start 0x200000 0x201000 0x202000,
       Op.scheduler_extension_cleanup]).tasks 0).active = false := by
  refine ⟨?_, ?_, ?_, ?_⟩ <;> decide

/-- C9 (code at the failing input): a task is created on the fresh world with its stack at
`0x300000`, which the table then owns; `sched_start` clears the table without freeing, so
afterwards the region `0x300000` is still live and no active slot owns it. -/
theorem restart_leaks_stack :
    (run demo_image fresh [Op.task_create 0x100300 "Task D" 0x300000]).live = [0x300000] ∧
    owned_stacks (run demo_image fresh [Op.task_create 0x100300 "Task D" 0x300000])
      = [0x300000] ∧
    (run demo_image fresh
      [Op.task_create 0x100300 "Task D" 0x300000,
       Op.cmd_scheduler_start 0x200000 0x201000 0x202000]).live
      = [0x202000, 0x201000, 0x200000, 0x300000] ∧
    owned_stacks (run demo_image fresh
      [Op.task_create 0x100300 "Task D" 0x300000,
       Op.cmd_scheduler_start 0x200000 0x201000 0x202000])
      = [0x200000, 0x201000, 0x202000] := by
  refine ⟨?_, ?_, ?_, ?_⟩ <;> decide

/-! ### `cmd_scheduler_start` -/

theorem clear_loop_active :
    ∀ (n : Nat) (i : Int) (s : World), 0 ≤ i → ∀ k : Int,
      (tableAt (clear_loop n i s).tasks k).active =
        if i ≤ k ∧ k < i + n then false else (tableAt s.tasks k).active := by
  intro n
  induction n with
  | zero =>
    intro i s _ k
    have : ¬(i ≤ k ∧ k < i + ((0 : Nat) : Int)) := by
      push_cast; omega
    rw [if_neg this]
    rfl
  | succ n ih =>
    intro i s hi k
    simp only [clear_loop]
    rw [ih (i + 1) _ (by omega) k]
    simp only [World.setTcb, tableSet_tableSet]
    by_cases hk : k = i
    · subst hk
      have h1 : ¬(k + 1 ≤ k ∧ k < k + 1 + (n : Int)) := by omega
      have h2 : k ≤ k ∧ k < k + ((n + 1 : Nat) : Int) := by push_cast; omega
      rw [if_neg h1, if_pos h2]
      by_cases hr : 0 ≤ k ∧ k < 4
      · rw [tableAt_set_same _ hr]
      · rw [tableSet_out _ hr, tableAt_out _ hr]
        rfl
    · rw [tableAt_set_ne _ (Ne.symm hk)]
      have h1 : (i + 1 ≤ k ∧ k < i + 1 + (n : Int)) ↔ (i ≤ k ∧ k < i + ((n + 1 : Nat) : Int)) := by
        push_cast; omega
      simp only [h1]

/-- No `active` flag is cleared by `task_create`. -/
theorem task_create_active_mono (s : World) (entry_point : Nat) (name : String) (a : Nat)
    (k : Int) (h : (tableAt s.tasks k).active = true) :
    (tableAt (task_create s entry_point name a).2.tasks k).active = true := by
  rcases find_free_tcb_slot_spec s with ⟨hf, -⟩ | ⟨h1, h2, h3, -⟩
  · rw [task_create_eq_full s entry_point name a hf]
    exact h
  · have hne : find_free_tcb_slot s ≠ k := by
      intro e
      rw [World.tcb, e, h] at h3
      exact Bool.noConfusion h3
    by_cases hk : (kmalloc s TASK_STACK_SIZE a).1 = 0
    · rw [task_create_eq_fail s entry_point name a ⟨h1, h2⟩ hk]
      simp only []
      rw [tableAt_set_ne _ hne]
      exact h
    · rw [task_create_eq_ok s entry_point name a ⟨h1, h2⟩ hk]
      simp only []
      rw [tableAt_set_ne _ hne]
      exact h

/-- On an empty table `task_create` either leaves the table empty or fills slot 0. -/
theorem task_create_on_empty (s : World) (entry_point : Nat) (name : String) (a : Nat)
    (h : ∀ k : Int, (tableAt s.tasks k).active = false) :
    (∀ k : Int, (tableAt (task_create s entry_point name a).2.tasks k).active = false) ∨
    (tableAt (task_create s entry_point name a).2.tasks 0).active = true := by
  rcases find_free_tcb_slot_spec s with ⟨hf, -⟩ | ⟨h1, h2, -, h4⟩
  · rw [task_create_eq_full s entry_point name a hf]
    exact Or.inl h
  · have h0 : find_free_tcb_slot s = 0 := by
      by_contra hne
      have := h4 0 (le_refl _) (by omega)
      rw [World.tcb, h 0] at this
      exact Bool.noConfusion this
    by_cases hk : (kmalloc s TASK_STACK_SIZE a).1 = 0
    · rw [task_create_eq_fail s entry_point name a ⟨h1, h2⟩ hk]
      left
      intro k
      simp only []
      exact (tableAt_set_frame (fun t => t.active) s.tasks (find_free_tcb_slot s) k
        (fun t => { t with stack_base := 0 }) (fun _ => rfl)).trans (h k)
    · rw [task_create_eq_ok s entry_point name a ⟨h1, h2⟩ hk]
      right
      simp only []
      rw [h0, tableAt_set_same _ (by decide)]

/-- After its three creations `cmd_scheduler_start` has an empty table or slot 0 active. -/
theorem three_creates_on_empty (s : World) (e1 e2 e3 : Nat) (n1 n2 n3 : String)
    (a1 a2 a3 : Nat) (h : ∀ k : Int, (tableAt s.tasks k).active = false) :
    (∀ k : Int, (tableAt (task_create (task_create (task_create s e1 n1 a1).2
        e2 n2 a2).2 e3 n3 a3).2.tasks k).active = false) ∨
    (tableAt (task_create (task_create (task_create s e1 n1 a1).2
        e2 n2 a2).2 e3 n3 a3).2.tasks 0).active = true := by
  rcases task_create_on_empty s e1 n1 a1 h with c1 | c1
  · rcases task_create_on_empty _ e2 n2 a2 c1 with c2 | c2
    · exact task_create_on_empty _ e3 n3 a3 c2
    · exact Or.inr (task_create_active_mono _ e3 n3 a3 0 c2)
  · exact Or.inr (task_create_active_mono _ e3 n3 a3 0
      (task_create_active_mono _ e2 n2 a2 0 c1))

/-- With no cursor, `cmd_scheduler_start` ends with the table it rebuilt and with the
result of its scan as the cursor. -/
theorem cmd_scheduler_start_fields (img : Image) (s : World) (a1 a2 a3 : Nat)
    (hc : s.current_task_idx = -1) :
    (cmd_scheduler_start img s a1 a2 a3).tasks = (demo_tasks_created img s a1 a2 a3).tasks ∧
    (cmd_scheduler_start img s a1 a2 a3).current_task_idx =
      first_active_loop (demo_tasks_created img s a1 a2 a3).tasks MAX_TASKS 0 ∧
    (cmd_scheduler_start img s a1 a2 a3).next_task_id =
      (demo_tasks_created img s a1 a2 a3).next_task_id ∧
    (cmd_scheduler_start img s a1 a2 a3).live = (demo_tasks_created img s a1 a2 a3).live := by
  unfold cmd_scheduler_start demo_tasks_created
  rw [if_neg (by rw [hc]; decide)]
  simp only []
  split
  · rename_i h
    exact ⟨rfl, h.symm ▸ rfl, rfl, rfl⟩
  · simp [context_switch, World.touch, terminal_writestring]

theorem demo_tasks_created_cleared (s : World) (k : Int) :
    (tableAt ({ clear_loop MAX_TASKS 0
        (terminal_writestring s "SCHED: Initializing scheduler...\n") with
        next_task_id := 0 } : World).tasks k).active = false := by
  simp only []
  rw [clear_loop_active MAX_TASKS 0 _ (le_refl _) k]
  split
  · rfl
  · rename_i hk
    have hr : ¬(0 ≤ k ∧ k < 4) := by simpa using hk
    rw [tableAt_out _ hr]
    rfl

/-- Cursor and table of `cmd_scheduler_start` called with no cursor. -/
theorem cmd_scheduler_start_outcome (img : Image) (s : World) (a1 a2 a3 : Nat)
    (hc : s.current_task_idx = -1) :
    ((cmd_scheduler_start img s a1 a2 a3).current_task_idx = -1 ∧
      ∀ j : Fin MAX_TASKS, ((cmd_scheduler_start img s a1 a2 a3).tasks j).active = false) ∨
    ((cmd_scheduler_start img s a1 a2 a3).current_task_idx = 0 ∧
      ((cmd_scheduler_start img s a1 a2 a3).tasks 0).active = true) := by
  obtain ⟨e1, e2, -, -⟩ := cmd_scheduler_start_fields img s a1 a2 a3 hc
  have h3 : (∀ k : Int, (tableAt (demo_tasks_created img s a1 a2 a3).tasks k).active = false) ∨
      (tableAt (demo_tasks_created img s a1 a2 a3).tasks 0).active = true :=
    three_creates_on_empty _ img.task_a_entry img.task_b_entry img.task_c_entry
      "Task A" "Task B" "Task C" a1 a2 a3 (demo_tasks_created_cleared s)
  rw [e1, e2]
  generalize (demo_tasks_created img s a1 a2 a3) = w at h3 ⊢
  rcases first_active_loop_spec w.tasks MAX_TASKS 0 (le_refl _) with ⟨hr, hall⟩ | ⟨f1, -, f3, f4⟩
  · left
    refine ⟨hr, ?_⟩
    intro j
    have hj : j.val < 4 := j.isLt
    have := hall j (by omega) (by simp only [zero_add]; exact_mod_cast hj)
    rwa [tableAt_coe] at this
  · right
    have h0 : (tableAt w.tasks 0).active = true := by
      rcases h3 with h | h
      · rw [h] at f3; exact Bool.noConfusion f3
      · exact h
    have hr0 : first_active_loop w.tasks MAX_TASKS 0 = 0 := by
      by_contra hne
      have := f4 0 (le_refl _) (by omega)
      rw [h0] at this
      exact Bool.noConfusion this
    exact ⟨hr0, h0⟩

/-- A `task_create` whose allocation is refused leaves an empty table empty. -/
theorem task_create_refused_on_empty (s : World) (entry_point : Nat) (name : String)
    (h : ∀ k : Int, (tableAt s.tasks k).active = false) :
    ∀ k : Int, (tableAt (task_create s entry_point name 0).2.tasks k).active = false := by
  have hk : (kmalloc s TASK_STACK_SIZE 0).1 = 0 := by
    unfold kmalloc
    rw [if_neg (fun h => h.1 rfl)]
  rcases find_free_tcb_slot_spec s with ⟨hf, -⟩ | ⟨h1, h2, -, -⟩
  · rw [task_create_eq_full s entry_point name 0 hf]
    exact h
  · rw [task_create_eq_fail s entry_point name 0 ⟨h1, h2⟩ hk]
    intro k
    exact (tableAt_set_frame (fun t => t.active) s.tasks (find_free_tcb_slot s) k
      (fun t => { t with stack_base := 0 }) (fun _ => rfl)).trans (h k)

/-- With no cursor and all three allocations refused, `cmd_scheduler_start` ends with an
empty table and no cursor. -/
theorem cmd_scheduler_start_refused (img : Image) (s : World)
    (hc : s.current_task_idx = -1) :
    (cmd_scheduler_start img s 0 0 0).current_task_idx = -1 ∧
    ∀ j : Fin MAX_TASKS, ((cmd_scheduler_start img s 0 0 0).tasks j).active = false := by
  obtain ⟨e1, e2, -, -⟩ := cmd_scheduler_start_fields img s 0 0 0 hc
  have h3 : ∀ k : Int, (tableAt (demo_tasks_created img s 0 0 0).tasks k).active = false := by
    unfold demo_tasks_created
    apply task_create_refused_on_empty
    apply task_create_refused_on_empty
    apply task_create_refused_on_empty
    exact demo_tasks_created_cleared s
  rw [e1, e2]
  generalize (demo_tasks_created img s 0 0 0) = w at h3 ⊢
  rcases first_active_loop_spec w.tasks MAX_TASKS 0 (le_refl _) with ⟨hr, -⟩ | ⟨-, -, f3, -⟩
  · exact ⟨hr, fun j => by rw [← tableAt_coe w.tasks j]; exact h3 j⟩
  · rw [h3] at f3
    exact Bool.noConfusion f3

/-- Counterexample to C10 as stated: on the fresh world (no cursor, no active slot)
`cmd_scheduler_start` is not a no-op, it creates the demo tasks and sets the cursor to 0;
and from a world with no cursor and slot 0 active, when the three stack allocations fail,
it leaves every slot inactive and no slot is the cursor. -/
theorem cmd_scheduler_start_not_as_stated :
    (fresh.current_task_idx = -1 ∧
      (∀ j : Fin MAX_TASKS, (fresh.tasks j).active = false) ∧
      (cmd_scheduler_start demo_image fresh 0x200000 0x201000 0x202000).current_task_idx = 0 ∧
      ((cmd_scheduler_start demo_image fresh 0x200000 0x201000 0x202000).tasks 0).active
        = true) ∧
    ((task_create fresh 0x100300 "Task D" 0x300000).2.current_task_idx = -1 ∧
      ((task_create fresh 0x100300 "Task D" 0x300000).2.tasks 0).active = true ∧
      (cmd_scheduler_start demo_image (task_create fresh 0x100300 "Task D" 0x300000).2
        0 0 0).current_task_idx = -1 ∧
      ∀ j : Fin MAX_TASKS,
        ((cmd_scheduler_start demo_image (task_create fresh 0x100300 "Task D" 0x300000).2
          0 0 0).tasks j).active = false) := by
  have hc : (task_create fresh 0x100300 "Task D" 0x300000).2.current_task_idx = -1 := by
    decide
  have h := cmd_scheduler_start_refused demo_image
    (task_create fresh 0x100300 "Task D" 0x300000).2 hc
  refine ⟨⟨?_, ?_, ?_, ?_⟩, ⟨hc, ?_, h.1, h.2⟩⟩ <;> decide

/-! ### Calls in an invalid state -/

/-- C11: with no cursor, `task_yield` returns the world unchanged, and `cmd_task_yield` and
`task_terminate_self` only append their report to the log; with a cursor set,
`cmd_scheduler_start` only appends its report.  In each case every slot, the cursor, the
next-identity counter, the live regions and memory are unchanged and the log gains no
`kmalloc`, `kfree` or `context_switch` event. -/
theorem invalid_state_calls_noop (img : Image) (s : World) (cpu_esp a1 a2 a3 : Nat) :
    (s.current_task_idx = -1 →
      task_yield s cpu_esp = s ∧
      cmd_task_yield s cpu_esp =
        { s with log := s.log ++ [Event.terminal_writestring
          "SCHED: Scheduler not running, no task to yield from.\n"] } ∧
      task_terminate_self s =
        { s with log := s.log ++ [Event.terminal_writestring
          "SCHED: Cannot terminate, no current task.\n"] }) ∧
    (s.current_task_idx ≠ -1 →
      cmd_scheduler_start img s a1 a2 a3 =
        { s with log := s.log ++ [Event.terminal_writestring
          "SCHED: Scheduler already running.\n"] }) := by
  constructor
  · intro h
    refine ⟨?_, ?_, ?_⟩
    · unfold task_yield
      rw [if_pos h]
    · unfold cmd_task_yield
      rw [if_pos h]
      rfl
    · unfold task_terminate_self
      rw [if_pos h]
      rfl
  · intro h
    unfold cmd_scheduler_start
    rw [if_pos h]
    rfl

/-- Witness for C11: the fresh world has no cursor, the demo world has one. -/
theorem invalid_state_calls_noop_witness :
    (fresh.current_task_idx = -1 ∧ task_yield fresh 5 = fresh) ∧
    (demo_running.current_task_idx ≠ -1 ∧
      cmd_scheduler_start demo_image demo_running 0x204000 0x205000 0x206000 =
        { demo_running with log := demo_running.log ++ [Event.terminal_writestring
          "SCHED: Scheduler already running.\n"] }) :=
  ⟨⟨by decide, ((invalid_state_calls_noop demo_image fresh 5 0 0 0).1 (by decide)).1⟩,
   ⟨by decide,
    (invalid_state_calls_noop demo_image demo_running 5 0x204000 0x205000 0x206000).2
      (by decide)⟩⟩

/-! ### First-fit slot allocation -/

/-- C14: `find_free_tcb_slot` returns `-1` exactly when all four slots are active; otherwise
it returns an index in `0..3` whose slot is inactive while every slot below it is active, so
the lowest inactive slot wins.  The function only reads the table: it yields an index and
no new world. -/
theorem find_free_tcb_slot_first_fit (s : World) :
    (find_free_tcb_slot s = -1 ↔ ∀ j : Fin MAX_TASKS, (s.tasks j).active = true) ∧
    (find_free_tcb_slot s ≠ -1 →
      0 ≤ find_free_tcb_slot s ∧ find_free_tcb_slot s < 4 ∧
      (s.tcb (find_free_tcb_slot s)).active = false ∧
      ∀ k : Int, 0 ≤ k → k < find_free_tcb_slot s → (s.tcb k).active = true) ∧
    (∀ i : Fin MAX_TASKS, (s.tasks i).active = false →
      (∀ j : Fin MAX_TASKS, j < i → (s.tasks j).active = true) →
      find_free_tcb_slot s = (i : Int)) := by
  have hspec := find_free_tcb_slot_spec s
  refine ⟨⟨?_, ?_⟩, ?_, ?_⟩
  · intro h
    rcases hspec with ⟨-, hall⟩ | ⟨h1, -, -, -⟩
    · exact hall
    · omega
  · intro hall
    rcases hspec with ⟨h, -⟩ | ⟨h1, h2, h3, -⟩
    · exact h
    · obtain ⟨k, hk1, -⟩ := slot?_in ⟨h1, h2⟩
      have := hall k
      rw [← tableAt_coe s.tasks k, hk1] at this
      rw [World.tcb, this] at h3
      exact Bool.noConfusion h3
  · intro hne
    rcases hspec with ⟨h, -⟩ | h
    · exact absurd h hne
    · exact h
  · intro i hi hlow
    have hi4 : i.val < 4 := i.isLt
    rcases hspec with ⟨-, hall⟩ | ⟨h1, h2, h3, h4⟩
    · rw [hall i] at hi
      exact Bool.noConfusion hi
    · obtain ⟨k, hk1, -⟩ := slot?_in ⟨h1, h2⟩
      have hk4 : k.val < 4 := k.isLt
      have hkv : ((k.val : Nat) : Int) = find_free_tcb_slot s := hk1
      show find_free_tcb_slot s = ((i.val : Nat) : Int)
      rcases Nat.lt_trichotomy k.val i.val with hlt | heq | hgt
      · have := hlow k (Fin.lt_def.2 hlt)
        rw [← tableAt_coe s.tasks k, hk1] at this
        rw [World.tcb, this] at h3
        exact Bool.noConfusion h3
      · omega
      · have := h4 ((i.val : Nat) : Int) (by omega) (by omega)
        rw [World.tcb] at this
        have e : tableAt s.tasks ((i.val : Nat) : Int) = s.tasks i := tableAt_coe s.tasks i
        rw [e, hi] at this
        exact Bool.noConfusion this

/-- Witness for C14: in the demo world slots 0, 1, 2 are taken and slot 3 is free. -/
theorem find_free_tcb_slot_first_fit_witness :
    (demo_running.tasks 3).active = false ∧ find_free_tcb_slot demo_running = 3 :=
  ⟨by decide,
   (find_free_tcb_slot_first_fit demo_running).2.2 3 (by decide) (by decide)⟩

/-! ### Frame of `task_yield` -/

/-- For every world, `task_yield` either changes nothing in the scheduler state, or
moves the cursor, stores `cpu_esp` in the old cursor's slot and logs one
`context_switch`. -/
theorem task_yield_cases (s : World) (cpu_esp : Nat) :
    (∃ o, task_yield s cpu_esp = { s with oob := o }) ∨
    (∃ nxt n o, task_yield s cpu_esp =
      { s with
        current_task_idx := nxt
        tasks := tableSet s.tasks s.current_task_idx (fun t => { t with esp := cpu_esp })
        log := s.log ++ [Event.context_switch (SavePtr.task_esp s.current_task_idx) n]
        oob := o }) := by
  unfold task_yield
  have h := task_yield_loop_frame s.current_task_idx MAX_TASKS 1 s
  split
  · exact Or.inl ⟨s.oob, rfl⟩
  · simp only []
    split
    · exact Or.inl ⟨_, h⟩
    · right
      rw [h]
      exact ⟨_, _, _, rfl⟩

/-- C18: for every world, `task_yield` leaves the `active` flag, identity, name, stack base
and every register field other than `esp` of every slot unchanged, leaves every slot other
than the old cursor's unchanged altogether (its saved stack pointer included), and keeps
the next-identity counter, the live regions and memory; the log gains at most one
`context_switch` event, so nothing is allocated or freed. -/
theorem task_yield_frame (s : World) (cpu_esp : Nat) :
    (∀ j : Fin MAX_TASKS,
      { (task_yield s cpu_esp).tasks j with esp := (s.tasks j).esp } = s.tasks j ∧
      ((j : Int) ≠ s.current_task_idx → (task_yield s cpu_esp).tasks j = s.tasks j)) ∧
    (task_yield s cpu_esp).next_task_id = s.next_task_id ∧
    (task_yield s cpu_esp).live = s.live ∧
    (task_yield s cpu_esp).mem = s.mem ∧
    ((task_yield s cpu_esp).log = s.log ∨
      ∃ n, (task_yield s cpu_esp).log =
        s.log ++ [Event.context_switch (SavePtr.task_esp s.current_task_idx) n]) := by
  rcases task_yield_cases s cpu_esp with ⟨o, h⟩ | ⟨nxt, n, o, h⟩
  · rw [h]
    exact ⟨fun j => ⟨rfl, fun _ => rfl⟩, rfl, rfl, rfl, Or.inl rfl⟩
  · rw [h]
    refine ⟨fun j => ⟨?_, ?_⟩, rfl, rfl, rfl, Or.inr ⟨n, rfl⟩⟩
    · simp only []
      rw [← tableAt_coe (tableSet s.tasks s.current_task_idx _) j]
      by_cases hj : (j : Int) = s.current_task_idx
      · have hr : 0 ≤ s.current_task_idx ∧ s.current_task_idx < 4 := by
          have := j.isLt
          have h4 : (j.val : Int) < 4 := by exact_mod_cast this
          rw [← hj]
          exact ⟨Int.natCast_nonneg _, h4⟩
        rw [hj, tableAt_set_same _ hr, ← hj, tableAt_coe]
      · rw [tableAt_set_ne _ (Ne.symm hj), tableAt_coe]
    · intro hj
      simp only []
      rw [← tableAt_coe (tableSet s.tasks s.current_task_idx _) j,
        tableAt_set_ne _ (Ne.symm hj), tableAt_coe]

/-- Witness for C18: a yield in the demo world leaves slot 1 as it was. -/
theorem task_yield_frame_witness :
    ((1 : Fin MAX_TASKS) : Int) ≠ demo_running.current_task_idx ∧
    (task_yield demo_running 7).tasks 1 = demo_running.tasks 1 :=
  ⟨by decide, ((task_yield_frame demo_running 7).1 1).2 (by decide)⟩

/-! ### Slot reuse after termination -/

/-- On a full table, after the cursor's slot has been released it is the slot
`find_free_tcb_slot` returns. -/
theorem find_free_after_release (s : World) (c : Int) (hr : 0 ≤ c ∧ c < 4)
    (hfull : ∀ j : Fin MAX_TASKS, (s.tasks j).active = true) (w : World)
    (hw : w.tasks = tableSet s.tasks c (fun t => { t with active := false })) :
    find_free_tcb_slot w = c := by
  rcases find_free_tcb_slot_spec w with ⟨-, hall⟩ | ⟨h1, h2, h3, -⟩
  · obtain ⟨k, hk1, -⟩ := slot?_in hr
    have := hall k
    rw [← tableAt_coe w.tasks k, hk1, hw, tableAt_set_same _ hr] at this
    exact Bool.noConfusion this
  · by_contra hne
    obtain ⟨k, hk1, -⟩ := slot?_in ⟨h1, h2⟩
    rw [World.tcb, hw, tableAt_set_ne _ (Ne.symm hne), ← hk1, tableAt_coe, hfull k] at h3
    exact Bool.noConfusion h3

/-- Counterexample to C13 as stated: on a full table whose counter is `-1`, the task in
slot 1 terminates and the following `task_create` gets its stack and puts the new task
into slot 1, yet the identity it returns is `-1`, not a non-negative one.  With the counter
at `1000000000` the identity has ten digits and its text overruns `id_str`. -/
theorem create_after_terminate_negative_identity :
    (∀ j : Fin MAX_TASKS, ((full_table_at (-1)).tasks j).active = true) ∧
    (full_table_at (-1)).current_task_idx = 1 ∧
    (kmalloc (task_terminate_self (full_table_at (-1))) TASK_STACK_SIZE 0x204000).1 ≠ 0 ∧
    ((task_create (task_terminate_self (full_table_at (-1)))
      0x100400 "Task E" 0x204000).2.tcb 1).active = true ∧
    ((task_create (task_terminate_self (full_table_at (-1)))
      0x100400 "Task E" 0x204000).2.tcb 1).name = "Task E" ∧
    (task_create (task_terminate_self (full_table_at (-1)))
      0x100400 "Task E" 0x204000).1 = -1 ∧
    (task_create (task_terminate_self (full_table_at 1000000000))
      0x100400 "Task E" 0x204000).2.overrun = [1000000000] := by
  refine ⟨?_, ?_, ?_, ?_, ?_, ?_, ?_⟩ <;> decide

/-- C13 (amended): on a full table with cursor `c` and a counter in `0..999999999`,
`task_terminate_self` marks slot `c` inactive and frees its stack once (the one `kfree` of
the emitted log); a following `task_create` whose allocation succeeds returns the counter,
a non-negative identity whose text fits `id_str`, and puts the new task into slot `c`, and
the other three slots are exactly as before the termination (stack base, identity, name
and `active` flag included).  The only text the termination writes through `id_str` is the
identity stored in slot `c`. -/
theorem terminate_then_create_reuses_slot (s : World) (c : Int)
    (entry_point : Nat) (name : String) (a : Nat)
    (hc : s.current_task_idx = c) (hr : 0 ≤ c ∧ c < 4)
    (hfull : ∀ j : Fin MAX_TASKS, (s.tasks j).active = true)
    (hnext : 0 ≤ s.next_task_id) (hfit : s.next_task_id < 1000000000)
    (hok : (kmalloc (task_terminate_self s) TASK_STACK_SIZE a).1 ≠ 0) :
    ((task_terminate_self s).tcb c).active = false ∧
    (task_terminate_self s).log = s.log ++
      [Event.terminal_writestring "SCHED: Terminating task '",
       Event.terminal_writestring (s.tcb c).name,
       Event.terminal_writestring "' (ID: ",
       Event.terminal_writeint (s.tcb c).id,
       Event.terminal_writestring ").\n",
       Event.kfree (s.tcb c).stack_base,
       Event.context_switch SavePtr.null
         (s.tcb (task_terminate_self s).current_task_idx).esp] ∧
    (task_create (task_terminate_self s) entry_point name a).1 = s.next_task_id ∧
    0 ≤ (task_create (task_terminate_self s) entry_point name a).1 ∧
    (task_create (task_terminate_self s) entry_point name a).2.overrun =
      (task_terminate_self s).overrun ∧
    ((task_create (task_terminate_self s) entry_point name a).2.tcb c).active = true ∧
    ((task_create (task_terminate_self s) entry_point name a).2.tcb c).name = name ∧
    ((task_create (task_terminate_self s) entry_point name a).2.tcb c).stack_base = a ∧
    ((task_create (task_terminate_self s) entry_point name a).2.tcb c).id =
      (task_create (task_terminate_self s) entry_point name a).1 ∧
    (∀ j : Fin MAX_TASKS, (j : Int) ≠ c →
      (task_create (task_terminate_self s) entry_point name a).2.tasks j = s.tasks j) ∧
    (task_terminate_self s).overrun = s.overrun ++ id_str_chk (s.tcb c).id := by
  subst hc
  have hother : ∃ j : Fin MAX_TASKS, (j : Int) ≠ s.current_task_idx ∧
      (s.tasks j).active = true := by
    by_cases h0 : s.current_task_idx = 0
    · exact ⟨1, by rw [h0]; decide, hfull 1⟩
    · exact ⟨0, fun h => h0 h.symm, hfull 0⟩
  have hscan := first_active_after_release s s.current_task_idx hother
  have hterm := task_terminate_self_eq s hr hscan
  have htasks : (task_terminate_self s).tasks =
      tableSet s.tasks s.current_task_idx (fun t => { t with active := false }) := by
    rw [hterm]
  have hnid : (task_terminate_self s).next_task_id = s.next_task_id :=
    task_terminate_self_next_task_id s
  have hslot := find_free_after_release s s.current_task_idx hr hfull _ htasks
  have hin : 0 ≤ find_free_tcb_slot (task_terminate_self s) ∧
      find_free_tcb_slot (task_terminate_self s) < 4 := by rw [hslot]; exact hr
  have hcreate := task_create_eq_ok (task_terminate_self s) entry_point name a hin hok
  have hchk : id_str_chk s.next_task_id = [] := by
    have : fits_id_str s.next_task_id = true := by
      unfold fits_id_str
      exact decide_eq_true ⟨by omega, hfit⟩
    simp [id_str_chk, this]
  refine ⟨?_, ?_, ?_, ?_, ?_, ?_, ?_, ?_, ?_, ?_, by rw [hterm]⟩
  · rw [World.tcb, htasks, tableAt_set_same _ hr]
  · rw [hterm]
  · rw [hcreate, hnid]
  · rw [hcreate, hnid]; exact hnext
  · rw [hcreate]
    simp only []
    rw [hnid, hchk, List.append_nil]
  · rw [hcreate, hslot, World.tcb]
    simp only []
    rw [tableAt_set_same _ hr]
  · rw [hcreate, hslot, World.tcb]
    simp only []
    rw [tableAt_set_same _ hr]
  · rw [hcreate, hslot, World.tcb]
    simp only []
    rw [tableAt_set_same _ hr]
  · rw [hcreate, hslot, World.tcb]
    simp only []
    rw [tableAt_set_same _ hr]
  · intro j hj
    rw [hcreate, hslot]
    simp only []
    rw [← tableAt_coe (tableSet _ s.current_task_idx _) j, tableAt_set_ne _ (Ne.symm hj),
      htasks, tableAt_set_ne _ (Ne.symm hj), tableAt_coe]

/-- Witness for C13 (amended): on the full table (counter 4) the task in slot 1 terminates
and a new task is created in slot 1 with identity 4. -/
theorem terminate_then_create_reuses_slot_witness :
    (∀ j : Fin MAX_TASKS, (full_table.tasks j).active = true) ∧
    ((task_create (task_terminate_self full_table) 0x100400 "Task E" 0x204000).2.tcb 1).name
      = "Task E" ∧
    (task_create (task_terminate_self full_table) 0x100400 "Task E" 0x204000).1 = 4 :=
  ⟨by decide,
   (terminate_then_create_reuses_slot full_table 1 0x100400 "Task E" 0x204000
      (by decide) (by decide) (by decide) (by decide) (by decide) (by decide)).2.2.2.2.2.2.1,
   (terminate_then_create_reuses_slot full_table 1 0x100400 "Task E" 0x204000
      (by decide) (by decide) (by decide) (by decide) (by decide) (by decide)).2.2.1⟩

/-! ### `cmd_list_tasks` -/

theorem finRange_four : List.finRange MAX_TASKS = [0, 1, 2, 3] := rfl

/-- The listing loop appends the entries of the active slots and changes nothing else. -/
theorem list_loop_eq (s : World) :
    list_loop MAX_TASKS 0 s =
      { s with log := s.log ++ active_entries s.tasks,
               overrun := s.overrun ++ active_overruns s.tasks } := by
  have t0 : ∀ w : World, w.tcb 0 = w.tasks 0 := fun _ => rfl
  have t1 : ∀ w : World, w.tcb (0 + 1) = w.tasks 1 := fun _ => rfl
  have t2 : ∀ w : World, w.tcb (0 + 1 + 1) = w.tasks 2 := fun _ => rfl
  have t3 : ∀ w : World, w.tcb (0 + 1 + 1 + 1) = w.tasks 3 := fun _ => rfl
  simp only [list_loop, t0, t1, t2, t3, active_entries, active_overruns, finRange_four,
    terminal_writestring, terminal_writeint, task_entry]
  rcases h0 : (s.tasks 0).active <;> rcases h1 : (s.tasks 1).active <;>
    rcases h2 : (s.tasks 2).active <;> rcases h3 : (s.tasks 3).active <;>
    simp [h0, h1, h2, h3, List.filter]

/-- C16: for every world, with or without a cursor, `cmd_list_tasks` writes the header,
then exactly one entry (identity and name) for each slot whose `active` flag is set, in
ascending slot order and none for an inactive slot, then the current-task lines; the table,
the cursor, the next-identity counter, the live regions and memory are unchanged. -/
theorem cmd_list_tasks_lists_active (s : World) :
    (cmd_list_tasks s).log =
      s.log ++ [Event.terminal_writestring "SCHED: Active Tasks:\n"] ++ active_entries s.tasks
        ++ [Event.terminal_writestring "SCHED: Current Task: "] ++ current_report s ∧
    (cmd_list_tasks s).tasks = s.tasks ∧
    (cmd_list_tasks s).current_task_idx = s.current_task_idx ∧
    (cmd_list_tasks s).next_task_id = s.next_task_id ∧
    (cmd_list_tasks s).live = s.live ∧
    (cmd_list_tasks s).mem = s.mem := by
  unfold cmd_list_tasks
  simp only []
  rw [list_loop_eq]
  by_cases hc : s.current_task_idx = -1
  · simp [hc, current_report, terminal_writestring]
  · simp [hc, current_report, terminal_writestring, terminal_writeint, World.touch, World.tcb]

/-! ### Termination of the last task -/

/-- No slot other than the cursor's is active, so the scan of `task_terminate_self`
finds nothing. -/
theorem first_active_none_after_release (s : World) (c : Int) (hr : 0 ≤ c ∧ c < 4)
    (honly : ∀ j : Fin MAX_TASKS, (j : Int) ≠ c → (s.tasks j).active = false) :
    (∀ k : Int, (tableAt (tableSet s.tasks c (fun t => { t with active := false })) k).active
      = false) ∧
    first_active_loop (tableSet s.tasks c (fun t => { t with active := false })) MAX_TASKS 0
      = -1 := by
  have hall : ∀ k : Int,
      (tableAt (tableSet s.tasks c (fun t => { t with active := false })) k).active = false := by
    intro k
    by_cases hk : k = c
    · rw [hk, tableAt_set_same _ hr]
    · rw [tableAt_set_ne _ (Ne.symm hk)]
      by_cases hkr : 0 ≤ k ∧ k < 4
      · obtain ⟨l, hl1, -⟩ := slot?_in hkr
        rw [← hl1, tableAt_coe]
        exact honly l (by rw [hl1]; exact hk)
      · rw [tableAt_out _ hkr]
        rfl
  refine ⟨hall, ?_⟩
  rcases first_active_loop_spec (tableSet s.tasks c (fun t => { t with active := false }))
      MAX_TASKS 0 (le_refl _) with ⟨h, -⟩ | ⟨-, -, h3, -⟩
  · exact h
  · rw [hall] at h3
    exact Bool.noConfusion h3

/-- Closed form of `task_terminate_self` when no other task remains: after the `hlt` the
function goes on with `current_task_idx = -1` and reads `tasks[-1]`. -/
theorem task_terminate_self_eq_last (s : World)
    (hr : 0 ≤ s.current_task_idx ∧ s.current_task_idx < 4)
    (hnext : first_active_loop
      (tableSet s.tasks s.current_task_idx (fun t => { t with active := false })) MAX_TASKS 0 = -1) :
    task_terminate_self s =
      { s with
        tasks := tableSet s.tasks s.current_task_idx (fun t => { t with active := false })
        current_task_idx := -1
        live := s.live.erase (s.tcb s.current_task_idx).stack_base
        log := s.log ++
          [Event.terminal_writestring "SCHED: Terminating task '",
           Event.terminal_writestring (s.tcb s.current_task_idx).name,
           Event.terminal_writestring "' (ID: ",
           Event.terminal_writeint (s.tcb s.current_task_idx).id,
           Event.terminal_writestring ").\n",
           Event.kfree (s.tcb s.current_task_idx).stack_base,
           Event.terminal_writestring "SCHED: All tasks terminated. Kernel will now halt.\n",
           Event.hlt,
           Event.context_switch SavePtr.null 0]
        oob := s.oob ++ [-1]
        overrun := s.overrun ++ id_str_chk (s.tcb s.current_task_idx).id } := by
  have hne : s.current_task_idx ≠ -1 := by omega
  have hout : ¬(0 ≤ (-1 : Int) ∧ (-1 : Int) < 4) := by decide
  unfold task_terminate_self
  rw [if_neg hne]
  simp [terminal_writestring, terminal_writeint, World.touch, World.setTcb, kfree,
    context_switch, hlt, World.tcb, chk_in hr, chk_out hout, hnext, tableAt_set_same _ hr,
    tableAt_out _ hout, TaskControlBlock.zero]

/-- Counterexample to C12 as stated: the last task (slot 2) terminates, which leaves no
active slot and no cursor; a following `cmd_scheduler_start` is not reported as invalid but
creates the three demo tasks again and sets the cursor to slot 0. -/
theorem start_after_drain_restarts :
    last_task.current_task_idx = 2 ∧
    (∀ j : Fin MAX_TASKS, (last_task.tasks j).active = decide (j = 2)) ∧
    (∀ j : Fin MAX_TASKS, ((task_terminate_self last_task).tasks j).active = false) ∧
    (task_terminate_self last_task).current_task_idx = -1 ∧
    (cmd_scheduler_start demo_image (task_terminate_self last_task)
      0x200000 0x201000 0x202000).current_task_idx = 0 ∧
    (∀ j : Fin MAX_TASKS, ((cmd_scheduler_start demo_image (task_terminate_self last_task)
      0x200000 0x201000 0x202000).tasks j).active = decide (j ≠ 3)) := by
  refine ⟨?_, ?_, ?_, ?_, ?_, ?_⟩ <;> decide

/-- C12 (amended): when the cursor's slot is the only active slot, `task_terminate_self`
leaves no active slot and no cursor and reports the halt (`hlt` is logged); from that state
`task_yield` changes nothing and `cmd_task_yield` only appends its report.
`cmd_scheduler_start` treats that state like the not-started one: it rebuilds the table
with the demo tasks, and ends with the cursor on slot 0 (slot 0 active), or with no cursor
and no active slot when no demo task could be created. -/
theorem drained_state (img : Image) (s : World) (cpu_esp a1 a2 a3 : Nat)
    (hr : 0 ≤ s.current_task_idx ∧ s.current_task_idx < 4)
    (_hcur : (s.tcb s.current_task_idx).active = true)
    (honly : ∀ j : Fin MAX_TASKS, (j : Int) ≠ s.current_task_idx → (s.tasks j).active = false) :
    (∀ j : Fin MAX_TASKS, ((task_terminate_self s).tasks j).active = false) ∧
    (task_terminate_self s).current_task_idx = -1 ∧
    Event.hlt ∈ (task_terminate_self s).log ∧
    task_yield (task_terminate_self s) cpu_esp = task_terminate_self s ∧
    cmd_task_yield (task_terminate_self s) cpu_esp =
      { task_terminate_self s with log := (task_terminate_self s).log ++
        [Event.terminal_writestring
          "SCHED: Scheduler not running, no task to yield from.\n"] } ∧
    (cmd_scheduler_start img (task_terminate_self s) a1 a2 a3).tasks =
      (demo_tasks_created img (task_terminate_self s) a1 a2 a3).tasks ∧
    (((cmd_scheduler_start img (task_terminate_self s) a1 a2 a3).current_task_idx = 0 ∧
        ((cmd_scheduler_start img (task_terminate_self s) a1 a2 a3).tasks 0).active = true) ∨
      ((cmd_scheduler_start img (task_terminate_self s) a1 a2 a3).current_task_idx = -1 ∧
        ∀ j : Fin MAX_TASKS,
          ((cmd_scheduler_start img (task_terminate_self s) a1 a2 a3).tasks j).active
            = false)) := by
  obtain ⟨hall, hscan⟩ := first_active_none_after_release s s.current_task_idx hr honly
  have hterm := task_terminate_self_eq_last s hr hscan
  have hcur : (task_terminate_self s).current_task_idx = -1 := by rw [hterm]
  refine ⟨?_, hcur, ?_, ?_, ?_, ?_, ?_⟩
  · intro j
    rw [hterm]
    simp only []
    rw [← tableAt_coe (tableSet s.tasks s.current_task_idx _) j]
    exact hall j
  · rw [hterm]
    simp
  · unfold task_yield
    rw [if_pos hcur]
  · unfold cmd_task_yield
    rw [if_pos hcur]
    rfl
  · exact (cmd_scheduler_start_fields img _ a1 a2 a3 hcur).1
  · exact (cmd_scheduler_start_outcome img _ a1 a2 a3 hcur).symm

/-- Witness for C12 (amended): the world with one task left. -/
theorem drained_state_witness :
    last_task.current_task_idx = 2 ∧
    (task_terminate_self last_task).current_task_idx = -1 ∧
    Event.hlt ∈ (task_terminate_self last_task).log :=
  ⟨by decide,
   (drained_state demo_image last_task 7 0x200000 0x201000 0x202000
      (by decide) (by decide) (by decide)).2.1,
   (drained_state demo_image last_task 7 0x200000 0x201000 0x202000
      (by decide) (by decide) (by decide)).2.2.1⟩

/-- C20 (code at the failing input): in the demo, after Task A and Task B have terminated,
Task C in slot 2 is the only task and no out-of-range index has been used; when Task C
calls `task_terminate_self`, the function logs `hlt`, then sets the cursor to `-1` and
reads `tasks[-1].esp` for the final `context_switch`: index `-1` is used on the table. -/
theorem terminate_last_task_reads_out_of_range :
    (task_terminate_self (task_terminate_self demo_running)).current_task_idx = 2 ∧
    (task_terminate_self (task_terminate_self demo_running)).oob = [] ∧
    (task_terminate_self
      (task_terminate_self (task_terminate_self demo_running))).current_task_idx = -1 ∧
    (task_terminate_self (task_terminate_self (task_terminate_self demo_running))).oob
      = [-1] := by
  have hr : 0 ≤ (task_terminate_self (task_terminate_self demo_running)).current_task_idx ∧
      (task_terminate_self (task_terminate_self demo_running)).current_task_idx < 4 := by
    decide
  have honly : ∀ j : Fin MAX_TASKS,
      (j : Int) ≠ (task_terminate_self (task_terminate_self demo_running)).current_task_idx →
      ((task_terminate_self (task_terminate_self demo_running)).tasks j).active = false := by
    decide
  have hoob : (task_terminate_self (task_terminate_self demo_running)).oob = [] := by
    decide
  obtain ⟨-, hscan⟩ := first_active_none_after_release _ _ hr honly
  have hterm := task_terminate_self_eq_last _ hr hscan
  refine ⟨by decide, hoob, ?_, ?_⟩
  · rw [hterm]
  · rw [hterm]
    simp only []
    rw [hoob]
    rfl

/-! ### Identities of the active slots along a run -/

/-- An update that keeps identities and sets no `active` flag keeps both facts slot-wise. -/
theorem tableSet_fin_shrink (t : Fin MAX_TASKS → TaskControlBlock) (i : Int)
    (f : TaskControlBlock → TaskControlBlock)
    (hact : ∀ x, (f x).active = true → x.active = true) (hid : ∀ x, (f x).id = x.id)
    (j : Fin MAX_TASKS) :
    ((tableSet t i f j).active = true → (t j).active = true) ∧
    (tableSet t i f j).id = (t j).id := by
  by_cases h : (j : Int) = i
  · subst h
    rw [tableSet_fin_same]
    exact ⟨hact _, hid _⟩
  · rw [tableSet_fin_ne t i j f h]
    exact ⟨id, rfl⟩

/-- A step that keeps the counter, activates nothing and keeps the identities of the
slots that stay active preserves `ids_valid`. -/
theorem ids_valid_shrink (s w : World) (hs : ids_valid s)
    (hn : w.next_task_id = s.next_task_id)
    (ht : ∀ j : Fin MAX_TASKS,
      ((w.tasks j).active = true → (s.tasks j).active = true) ∧ (w.tasks j).id = (s.tasks j).id) :
    ids_valid w := by
  obtain ⟨h0, h1, h2⟩ := hs
  refine ⟨by rw [hn]; exact h0, ?_, ?_⟩
  · intro j hj
    rw [(ht j).2, hn]
    exact h1 j ((ht j).1 hj)
  · intro j k hj hk hjk
    rw [(ht j).2, (ht k).2]
    exact h2 j k ((ht j).1 hj) ((ht k).1 hk) hjk

theorem ids_valid_task_yield (s : World) (cpu_esp : Nat) (hs : ids_valid s) :
    ids_valid (task_yield s cpu_esp) := by
  rcases task_yield_cases s cpu_esp with ⟨o, h⟩ | ⟨nxt, n, o, h⟩
  · rw [h]
    exact ids_valid_shrink s _ hs rfl (fun j => ⟨id, rfl⟩)
  · rw [h]
    exact ids_valid_shrink s _ hs rfl
      (fun j => tableSet_fin_shrink s.tasks s.current_task_idx
        (fun t => { t with esp := cpu_esp }) (fun _ hx => hx) (fun _ => rfl) j)

theorem ids_valid_cmd_task_yield (s : World) (cpu_esp : Nat) (hs : ids_valid s) :
    ids_valid (cmd_task_yield s cpu_esp) := by
  unfold cmd_task_yield
  split
  · exact ids_valid_shrink s _ hs rfl (fun j => ⟨id, rfl⟩)
  · exact ids_valid_task_yield s cpu_esp hs

theorem context_switch_null_tasks (s : World) (n e : Nat) :
    (context_switch s SavePtr.null n e).tasks = s.tasks := rfl

theorem terminal_writestring_tasks (s : World) (text : String) :
    (terminal_writestring s text).tasks = s.tasks := rfl

theorem terminal_writeint_tasks (s : World) (n : Int) :
    (terminal_writeint s n).tasks = s.tasks := rfl

theorem kfree_tasks (s : World) (p : Nat) : (kfree s p).tasks = s.tasks := rfl

theorem hlt_tasks (s : World) : (hlt s).tasks = s.tasks := rfl

theorem touch_tasks (s : World) (i : Int) : (s.touch i).tasks = s.tasks := rfl

theorem setTcb_tasks (s : World) (i : Int) (f : TaskControlBlock → TaskControlBlock) :
    (s.setTcb i f).tasks = tableSet s.tasks i f := rfl

theorem terminal_writestring_current (s : World) (text : String) :
    (terminal_writestring s text).current_task_idx = s.current_task_idx := rfl

theorem terminal_writeint_current (s : World) (n : Int) :
    (terminal_writeint s n).current_task_idx = s.current_task_idx := rfl

theorem touch_current (s : World) (i : Int) :
    (s.touch i).current_task_idx = s.current_task_idx := rfl

/-- The table after `task_terminate_self`, for every world. -/
theorem task_terminate_self_tasks (s : World) :
    (task_terminate_self s).tasks = s.tasks ∨
    (task_terminate_self s).tasks =
      tableSet s.tasks s.current_task_idx (fun t => { t with active := false }) := by
  unfold task_terminate_self
  split
  · exact Or.inl rfl
  · right
    simp only [context_switch_null_tasks, touch_tasks]
    split <;>
      simp only [hlt_tasks, terminal_writestring_tasks, kfree_tasks, setTcb_tasks,
        terminal_writeint_tasks, touch_tasks, terminal_writestring_current,
        terminal_writeint_current, touch_current]

theorem ids_valid_task_terminate_self (s : World) (hs : ids_valid s) :
    ids_valid (task_terminate_self s) := by
  apply ids_valid_shrink s _ hs (task_terminate_self_next_task_id s)
  intro j
  rcases task_terminate_self_tasks s with h | h
  · rw [h]; exact ⟨id, rfl⟩
  · rw [h]
    exact tableSet_fin_shrink s.tasks s.current_task_idx (fun t => { t with active := false })
      (fun _ hx => absurd hx Bool.false_ne_true) (fun _ => rfl) j

theorem cmd_list_tasks_tasks (s : World) : (cmd_list_tasks s).tasks = s.tasks := by
  unfold cmd_list_tasks
  simp only []
  rw [list_loop_eq]
  split <;> simp only [terminal_writestring_tasks, terminal_writeint_tasks, touch_tasks]

theorem ids_valid_cmd_list_tasks (s : World) (hs : ids_valid s) :
    ids_valid (cmd_list_tasks s) :=
  ids_valid_shrink s _ hs (cmd_list_tasks_next_task_id s)
    (fun j => by rw [cmd_list_tasks_tasks]; exact ⟨id, rfl⟩)

theorem cleanup_loop_shrink :
    ∀ (n : Nat) (i : Int) (s : World) (j : Fin MAX_TASKS),
      (((cleanup_loop n i s).tasks j).active = true → (s.tasks j).active = true) ∧
      ((cleanup_loop n i s).tasks j).id = (s.tasks j).id := by
  intro n
  induction n with
  | zero => intro i s j; exact ⟨id, rfl⟩
  | succ n ih =>
    intro i s j
    simp only [cleanup_loop]
    split
    · obtain ⟨a1, a2⟩ := ih (i + 1)
        (((kfree s (s.tcb i).stack_base).setTcb i (fun t => { t with active := false })).setTcb i
          (fun t => { t with stack_base := 0 })) j
      have hb : ((((kfree s (s.tcb i).stack_base).setTcb i
          (fun t => { t with active := false })).setTcb i
          (fun t => { t with stack_base := 0 })).tasks j).active = true →
          (s.tasks j).active = true ∧
          ((((kfree s (s.tcb i).stack_base).setTcb i
          (fun t => { t with active := false })).setTcb i
          (fun t => { t with stack_base := 0 })).tasks j).id = (s.tasks j).id := by
        simp only [World.setTcb, kfree, tableSet_tableSet]
        intro hx
        have := tableSet_fin_shrink s.tasks i
          (fun x => { ({ x with active := false } : TaskControlBlock) with stack_base := 0 })
          (fun _ hx => absurd hx Bool.false_ne_true) (fun _ => rfl) j
        exact ⟨this.1 hx, this.2⟩
      have hc : ((((kfree s (s.tcb i).stack_base).setTcb i
          (fun t => { t with active := false })).setTcb i
          (fun t => { t with stack_base := 0 })).tasks j).id = (s.tasks j).id := by
        simp only [World.setTcb, kfree, tableSet_tableSet]
        exact (tableSet_fin_shrink s.tasks i
          (fun x => { ({ x with active := false } : TaskControlBlock) with stack_base := 0 })
          (fun _ hx => absurd hx Bool.false_ne_true) (fun _ => rfl) j).2
      exact ⟨fun hx => (hb (a1 hx)).1, a2.trans hc⟩
    · exact ih (i + 1) s j

theorem ids_valid_scheduler_extension_cleanup (s : World) (hs : ids_valid s) :
    ids_valid (scheduler_extension_cleanup s) := by
  apply ids_valid_shrink s _ hs (scheduler_extension_cleanup_next_task_id s)
  intro j
  unfold scheduler_extension_cleanup
  simp only [terminal_writestring]
  exact cleanup_loop_shrink MAX_TASKS 0 _ j

theorem ids_valid_congr (s w : World) (hs : ids_valid s) (ht : w.tasks = s.tasks)
    (hn : w.next_task_id = s.next_task_id) : ids_valid w :=
  ids_valid_shrink s w hs hn (fun j => by rw [ht]; exact ⟨id, rfl⟩)

/-- A world with no active slot and a non-negative counter has valid identities. -/
theorem ids_valid_of_empty (s : World) (h0 : 0 ≤ s.next_task_id)
    (h : ∀ k : Int, (tableAt s.tasks k).active = false) : ids_valid s := by
  have hf : ∀ j : Fin MAX_TASKS, (s.tasks j).active = false := by
    intro j
    rw [← tableAt_coe s.tasks j]
    exact h j
  refine ⟨h0, ?_, ?_⟩
  · intro j hj
    rw [hf j] at hj
    exact Bool.noConfusion hj
  · intro j k hj
    rw [hf j] at hj
    exact Bool.noConfusion hj

/-- The effect of `task_create` on valid identities: they stay valid, and the counter
stays or grows by one. -/
theorem ids_valid_task_create (s : World) (entry_point : Nat) (name : String) (a : Nat)
    (hs : ids_valid s) (hb : s.next_task_id + 1 < 2147483648) :
    ids_valid (task_create s entry_point name a).2 ∧
    (task_create s entry_point name a).2.next_task_id ≤ s.next_task_id + 1 := by
  rcases find_free_tcb_slot_spec s with ⟨hf, -⟩ | ⟨h1, h2, h3, -⟩
  · rw [task_create_eq_full s entry_point name a hf]
    exact ⟨ids_valid_shrink s _ hs rfl (fun j => ⟨id, rfl⟩), by simp⟩
  · by_cases hk : (kmalloc s TASK_STACK_SIZE a).1 = 0
    · rw [task_create_eq_fail s entry_point name a ⟨h1, h2⟩ hk]
      refine ⟨ids_valid_shrink s _ hs rfl ?_, by simp⟩
      intro j
      exact tableSet_fin_shrink s.tasks (find_free_tcb_slot s)
        (fun t => { t with stack_base := 0 }) (fun _ hx => hx) (fun _ => rfl) j
    · rw [task_create_eq_ok s entry_point name a ⟨h1, h2⟩ hk]
      obtain ⟨g0, g1, g2⟩ := hs
      have hw : wrap_int (s.next_task_id + 1) = s.next_task_id + 1 :=
        wrap_int_id _ (by omega) hb
      simp only [hw]
      refine ⟨⟨by simp only []; omega, ?_, ?_⟩, le_refl _⟩
      · intro j
        simp only []
        by_cases hj : (j : Int) = find_free_tcb_slot s
        · rw [← hj, tableSet_fin_same]
          intro _
          simp only []
          omega
        · rw [tableSet_fin_ne _ _ _ _ hj]
          intro hact
          have := g1 j hact
          omega
      · intro j k
        simp only []
        by_cases hj : (j : Int) = find_free_tcb_slot s
        · by_cases hk' : (k : Int) = find_free_tcb_slot s
          · intro _ _ hjk
            exact absurd (Fin.ext (by
              have : ((j.val : Nat) : Int) = ((k.val : Nat) : Int) := hj.trans hk'.symm
              exact_mod_cast this)) hjk
          · rw [tableSet_fin_ne _ _ k _ hk', ← hj, tableSet_fin_same]
            intro _ hact _
            simp only []
            have := g1 k hact
            omega
        · rw [tableSet_fin_ne _ _ j _ hj]
          by_cases hk' : (k : Int) = find_free_tcb_slot s
          · rw [← hk', tableSet_fin_same]
            intro hact _ _
            simp only []
            have := g1 j hact
            omega
          · rw [tableSet_fin_ne _ _ k _ hk']
            exact g2 j k

theorem clear_loop_next_task_id :
    ∀ (n : Nat) (i : Int) (s : World), (clear_loop n i s).next_task_id = s.next_task_id := by
  intro n
  induction n with
  | zero => intro i s; rfl
  | succ n ih =>
    intro i s
    simp only [clear_loop]
    rw [ih]
    rfl

/-- Valid identities after `cmd_scheduler_start`; a restart leaves the counter at most 3. -/
theorem ids_valid_cmd_scheduler_start (img : Image) (s : World) (a1 a2 a3 : Nat)
    (hs : ids_valid s) :
    ids_valid (cmd_scheduler_start img s a1 a2 a3) ∧
    ((cmd_scheduler_start img s a1 a2 a3).next_task_id ≤ s.next_task_id ∨
      (cmd_scheduler_start img s a1 a2 a3).next_task_id ≤ 3) := by
  by_cases hc : s.current_task_idx = -1
  · obtain ⟨e1, -, e3, -⟩ := cmd_scheduler_start_fields img s a1 a2 a3 hc
    have hclear : ids_valid ({ clear_loop MAX_TASKS 0
        (terminal_writestring s "SCHED: Initializing scheduler...\n") with
        next_task_id := 0 } : World) :=
      ids_valid_of_empty _ (le_refl _) (demo_tasks_created_cleared s)
    obtain ⟨v1, b1⟩ := ids_valid_task_create _ img.task_a_entry "Task A" a1 hclear
      (show (0 : Int) + 1 < 2147483648 by decide)
    have b1' : (task_create ({ clear_loop MAX_TASKS 0
        (terminal_writestring s "SCHED: Initializing scheduler...\n") with
        next_task_id := 0 } : World) img.task_a_entry "Task A" a1).2.next_task_id ≤ 1 := b1
    obtain ⟨v2, b2⟩ := ids_valid_task_create _ img.task_b_entry "Task B" a2 v1 (by omega)
    obtain ⟨v3, b3⟩ := ids_valid_task_create _ img.task_c_entry "Task C" a3 v2 (by omega)
    have hw : ids_valid (demo_tasks_created img s a1 a2 a3) := v3
    have hb : (demo_tasks_created img s a1 a2 a3).next_task_id ≤ 3 := by
      have : (demo_tasks_created img s a1 a2 a3).next_task_id ≤
          (task_create (task_create ({ clear_loop MAX_TASKS 0
            (terminal_writestring s "SCHED: Initializing scheduler...\n") with
            next_task_id := 0 } : World) img.task_a_entry "Task A" a1).2
            img.task_b_entry "Task B" a2).2.next_task_id + 1 := b3
      omega
    exact ⟨ids_valid_congr _ _ hw e1 e3, Or.inr (by rw [e3]; exact hb)⟩
  · unfold cmd_scheduler_start
    rw [if_pos hc]
    exact ⟨ids_valid_shrink s _ hs rfl (fun j => ⟨id, rfl⟩), Or.inl (le_refl _)⟩

/-- One public operation keeps the identities valid; the counter grows by at most one or is
at most 3 afterwards. -/
theorem ids_valid_step (img : Image) (s : World) (op : Op) (hs : ids_valid s)
    (hb : s.next_task_id + 1 < 2147483648) :
    ids_valid (step img s op) ∧
    ((step img s op).next_task_id ≤ s.next_task_id + 1 ∨ (step img s op).next_task_id ≤ 3) := by
  cases op with
  | task_create entry_point name a =>
    obtain ⟨v, b⟩ := ids_valid_task_create s entry_point name a hs hb
    exact ⟨v, Or.inl b⟩
  | cmd_scheduler_start a1 a2 a3 =>
    obtain ⟨v, b⟩ := ids_valid_cmd_scheduler_start img s a1 a2 a3 hs
    refine ⟨v, ?_⟩
    rcases b with b | b
    · left
      show (cmd_scheduler_start img s a1 a2 a3).next_task_id ≤ s.next_task_id + 1
      omega
    · exact Or.inr b
  | task_yield cpu_esp =>
    refine ⟨ids_valid_task_yield s cpu_esp hs, Or.inl ?_⟩
    show (task_yield s cpu_esp).next_task_id ≤ s.next_task_id + 1
    rw [task_yield_next_task_id]; omega
  | cmd_task_yield cpu_esp =>
    refine ⟨ids_valid_cmd_task_yield s cpu_esp hs, Or.inl ?_⟩
    show (cmd_task_yield s cpu_esp).next_task_id ≤ s.next_task_id + 1
    rw [cmd_task_yield_next_task_id]; omega
  | task_terminate_self =>
    refine ⟨ids_valid_task_terminate_self s hs, Or.inl ?_⟩
    show (task_terminate_self s).next_task_id ≤ s.next_task_id + 1
    rw [task_terminate_self_next_task_id]; omega
  | cmd_list_tasks =>
    refine ⟨ids_valid_cmd_list_tasks s hs, Or.inl ?_⟩
    show (cmd_list_tasks s).next_task_id ≤ s.next_task_id + 1
    rw [cmd_list_tasks_next_task_id]; omega
  | scheduler_extension_cleanup =>
    refine ⟨ids_valid_scheduler_extension_cleanup s hs, Or.inl ?_⟩
    show (scheduler_extension_cleanup s).next_task_id ≤ s.next_task_id + 1
    rw [scheduler_extension_cleanup_next_task_id]; omega

/-- Valid identities along a run that is too short for the counter to overflow. -/
theorem ids_valid_run (img : Image) :
    ∀ (ops : List Op) (s : World), ids_valid s →
      s.next_task_id + ops.length < 2147483648 → 3 + (ops.length : Int) < 2147483648 →
      ids_valid (run img s ops) := by
  intro ops
  induction ops with
  | nil => intro s hs _ _; exact hs
  | cons op ops ih =>
    intro s hs h1 h2
    have hl : ((op :: ops).length : Int) = (ops.length : Int) + 1 := by simp
    rw [hl] at h1 h2
    have h0 := hs.1
    obtain ⟨v, b⟩ := ids_valid_step img s op hs (by omega)
    simp only [run]
    apply ih _ v
    · rcases b with b | b <;> omega
    · omega

/-- Valid identities right after `scheduler_extension_init` with the counter at 0. -/
theorem ids_valid_init (s0 : World) (h0 : s0.next_task_id = 0) :
    ids_valid (scheduler_extension_init s0).2 ∧ (scheduler_extension_init s0).2.next_task_id = 0 := by
  have hn : (scheduler_extension_init s0).2.next_task_id = 0 := by
    simp only [scheduler_extension_init, register_command, terminal_writestring]
    rw [clear_loop_next_task_id]
    exact h0
  refine ⟨ids_valid_of_empty _ (by rw [hn]) ?_, hn⟩
  intro k
  simp only [scheduler_extension_init, register_command, terminal_writestring]
  rw [clear_loop_active MAX_TASKS 0 _ (le_refl _) k]
  split
  · rfl
  · rename_i hk
    have hr : ¬(0 ≤ k ∧ k < 4) := by simpa using hk
    rw [tableAt_out _ hr]
    rfl

/-- C19: in every world reached from `scheduler_extension_init` (counter at 0) by a sequence
of `task_create`, `cmd_scheduler_start`, `task_yield`, `cmd_task_yield`,
`task_terminate_self`, `cmd_list_tasks` and `scheduler_extension_cleanup` calls that is too
short for the counter to overflow, the identity of every active slot is non-negative and
strictly below `next_task_id`, and two different active slots have different identities. -/
theorem active_ids_distinct_below_counter (img : Image) (s0 : World) (ops : List Op)
    (h0 : s0.next_task_id = 0) (hlen : ops.length + 3 < 2147483648) :
    (∀ j : Fin MAX_TASKS,
      ((run img (scheduler_extension_init s0).2 ops).tasks j).active = true →
      0 ≤ ((run img (scheduler_extension_init s0).2 ops).tasks j).id ∧
      ((run img (scheduler_extension_init s0).2 ops).tasks j).id <
        (run img (scheduler_extension_init s0).2 ops).next_task_id) ∧
    (∀ j k : Fin MAX_TASKS,
      ((run img (scheduler_extension_init s0).2 ops).tasks j).active = true →
      ((run img (scheduler_extension_init s0).2 ops).tasks k).active = true → j ≠ k →
      ((run img (scheduler_extension_init s0).2 ops).tasks j).id ≠
        ((run img (scheduler_extension_init s0).2 ops).tasks k).id) := by
  obtain ⟨hv, hn⟩ := ids_valid_init s0 h0
  have := ids_valid_run img ops _ hv (by rw [hn]; omega) (by omega)
  exact this.2

/-- Witness for C19: a run on the static initial state with a restart in the middle. -/
theorem active_ids_distinct_below_counter_witness :
    boot.next_task_id = 0 ∧
    (∀ j k : Fin MAX_TASKS,
      ((run demo_image (scheduler_extension_init boot).2
        [Op.task_create 0x100300 "Task D" 0x300000,
         Op.cmd_scheduler_start 0x200000 0x201000 0x202000,
         Op.task_yield 7, Op.task_terminate_self]).tasks j).active = true →
      ((run demo_image (scheduler_extension_init boot).2
        [Op.task_create 0x100300 "Task D" 0x300000,
         Op.cmd_scheduler_start 0x200000 0x201000 0x202000,
         Op.task_yield 7, Op.task_terminate_self]).tasks k).active = true → j ≠ k →
      ((run demo_image (scheduler_extension_init boot).2
        [Op.task_create 0x100300 "Task D" 0x300000,
         Op.cmd_scheduler_start 0x200000 0x201000 0x202000,
         Op.task_yield 7, Op.task_terminate_self]).tasks j).id ≠
        ((run demo_image (scheduler_extension_init boot).2
        [Op.task_create 0x100300 "Task D" 0x300000,
         Op.cmd_scheduler_start 0x200000 0x201000 0x202000,
         Op.task_yield 7, Op.task_terminate_self]).tasks k).id) :=
  ⟨by decide,
   (active_ids_distinct_below_counter demo_image boot
      [Op.task_create 0x100300 "Task D" 0x300000,
       Op.cmd_scheduler_start 0x200000 0x201000 0x202000,
       Op.task_yield 7, Op.task_terminate_self]
      (by decide) (by decide)).2⟩

/-! ### The initial stack frame -/

/-- A byte outside the four bytes at `a` is not touched by `write32`. -/
theorem write32_out (m : Nat → Nat) (a v x : Nat) (ha : a + 3 < 4294967296)
    (hx : x < a ∨ a + 4 ≤ x) : write32 m a v x = m x := by
  have e0 : a % U32 = a := Nat.mod_eq_of_lt (by show a < 4294967296; omega)
  have e1 : (a + 1) % U32 = a + 1 := Nat.mod_eq_of_lt (by show a + 1 < 4294967296; omega)
  have e2 : (a + 2) % U32 = a + 2 := Nat.mod_eq_of_lt (by show a + 2 < 4294967296; omega)
  have e3 : (a + 3) % U32 = a + 3 := Nat.mod_eq_of_lt (by show a + 3 < 4294967296; omega)
  unfold write32
  rw [e0, e1, e2, e3, if_neg (by omega), if_neg (by omega), if_neg (by omega), if_neg (by omega)]

/-- A 32-bit value stored at `a` is read back from `a`. -/
theorem read32_write32_same (m : Nat → Nat) (a v : Nat) (ha : a + 3 < 4294967296)
    (hv : v < 4294967296) : read32 (write32 m a v) a = v := by
  have e0 : a % U32 = a := Nat.mod_eq_of_lt (by show a < 4294967296; omega)
  have e1 : (a + 1) % U32 = a + 1 := Nat.mod_eq_of_lt (by show a + 1 < 4294967296; omega)
  have e2 : (a + 2) % U32 = a + 2 := Nat.mod_eq_of_lt (by show a + 2 < 4294967296; omega)
  have e3 : (a + 3) % U32 = a + 3 := Nat.mod_eq_of_lt (by show a + 3 < 4294967296; omega)
  have n1 : ¬(a + 1 = a) := by omega
  have n2 : ¬(a + 2 = a) := by omega
  have n3 : ¬(a + 2 = a + 1) := by omega
  have n4 : ¬(a + 3 = a) := by omega
  have n5 : ¬(a + 3 = a + 1) := by omega
  have n6 : ¬(a + 3 = a + 2) := by omega
  unfold read32 write32
  rw [e0, e1, e2, e3]
  simp only [n1, n2, n3, n4, n5, n6, if_true, if_false]
  omega

/-- A word stored at `a` does not change the word read at a disjoint address `a'`. -/
theorem read32_write32_ne (m : Nat → Nat) (a v a' : Nat) (ha : a + 3 < 4294967296)
    (ha' : a' + 3 < 4294967296) (h : a' + 4 ≤ a ∨ a + 4 ≤ a') :
    read32 (write32 m a v) a' = read32 m a' := by
  have e0 : a' % U32 = a' := Nat.mod_eq_of_lt (by show a' < 4294967296; omega)
  have e1 : (a' + 1) % U32 = a' + 1 := Nat.mod_eq_of_lt (by show a' + 1 < 4294967296; omega)
  have e2 : (a' + 2) % U32 = a' + 2 := Nat.mod_eq_of_lt (by show a' + 2 < 4294967296; omega)
  have e3 : (a' + 3) % U32 = a' + 3 := Nat.mod_eq_of_lt (by show a' + 3 < 4294967296; omega)
  unfold read32
  rw [e0, e1, e2, e3, write32_out m a v a' ha (by omega), write32_out m a v (a' + 1) ha (by omega),
    write32_out m a v (a' + 2) ha (by omega), write32_out m a v (a' + 3) ha (by omega)]

/-- Closed form of `setup_task_stack` for a stack inside the 32-bit address space. -/
theorem setup_task_stack_eq (m : Nat → Nat) (b e : Nat) (hb : b + 4096 ≤ 4294967296) :
    setup_task_stack m b e =
      (b + 4060,
        write32 (write32 (write32 (write32 (write32 (write32 (write32 (write32 (write32 m
          (b + 4092) (e % U32)) (b + 4088) 0x202) (b + 4084) 0) (b + 4080) 0) (b + 4076) 0)
          (b + 4072) 0) (b + 4068) 0) (b + 4064) 0) (b + 4060) 0) := by
  have h1 : ((b + 4096) % 4294967296 + 4294967296 - 4) % 4294967296 = b + 4092 := by omega
  have h2 : (b + 4092 + 4294967296 - 4) % 4294967296 = b + 4088 := by omega
  have h3 : (b + 4088 + 4294967296 - 4) % 4294967296 = b + 4084 := by omega
  have h4 : (b + 4084 + 4294967296 - 4) % 4294967296 = b + 4080 := by omega
  have h5 : (b + 4080 + 4294967296 - 4) % 4294967296 = b + 4076 := by omega
  have h6 : (b + 4076 + 4294967296 - 4) % 4294967296 = b + 4072 := by omega
  have h7 : (b + 4072 + 4294967296 - 4) % 4294967296 = b + 4068 := by omega
  have h8 : (b + 4068 + 4294967296 - 4) % 4294967296 = b + 4064 := by omega
  have h9 : (b + 4064 + 4294967296 - 4) % 4294967296 = b + 4060 := by omega
  simp only [setup_task_stack, push32, U32, TASK_STACK_SIZE, h1, h2, h3, h4, h5, h6, h7, h8, h9]

/-- C15: for a stack base `b` with `b + 4096 ≤ 2^32` and a 32-bit entry point `e`,
`setup_task_stack` returns `b + 4096 - 36`; afterwards the word at `b + 4092` is `e`, the
word at `b + 4088` is `0x202` (bit 9, interrupt enable, set) and the seven words at
`b + 4060, ..., b + 4084` are 0; every byte below `b + 4060` or at `b + 4096` and above is
unchanged, so all writes fall inside the stack region.  A `task_create` that finds a slot
and gets the region at `a` stores that returned stack pointer in the slot's `esp`. -/
theorem setup_task_stack_layout (m : Nat → Nat) (b e : Nat) (s : World) (entry_point : Nat)
    (name : String) (a : Nat)
    (hb : b + 4096 ≤ 4294967296) (he : e < 4294967296)
    (hslot : 0 ≤ find_free_tcb_slot s ∧ find_free_tcb_slot s < 4)
    (hok : (kmalloc s TASK_STACK_SIZE a).1 ≠ 0) :
    (setup_task_stack m b e).1 = b + 4096 - 36 ∧
    read32 (setup_task_stack m b e).2 (b + 4092) = e ∧
    read32 (setup_task_stack m b e).2 (b + 4088) = 0x202 ∧
    Nat.testBit 0x202 9 = true ∧
    (∀ i : Nat, i < 7 → read32 (setup_task_stack m b e).2 (b + 4060 + 4 * i) = 0) ∧
    (∀ x : Nat, x < b + 4060 ∨ b + 4096 ≤ x → (setup_task_stack m b e).2 x = m x) ∧
    ((task_create s entry_point name a).2.tcb (find_free_tcb_slot s)).esp =
      (setup_task_stack s.mem a entry_point).1 ∧
    ((task_create s entry_point name a).2.tcb (find_free_tcb_slot s)).esp = a + 4096 - 36 ∧
    (task_create s entry_point name a).2.mem = (setup_task_stack s.mem a entry_point).2 := by
  have hmod : e % U32 = e := Nat.mod_eq_of_lt he
  refine ⟨?_, ?_, ?_, by decide, ?_, ?_, ?_, ?_, ?_⟩
  · rw [setup_task_stack_eq m b e hb]
    show b + 4060 = b + 4096 - 36
    omega
  · rw [setup_task_stack_eq m b e hb, hmod]
    simp only []
    rw [read32_write32_ne _ (b + 4060) 0 (b + 4092) (by omega) (by omega) (by omega),
      read32_write32_ne _ (b + 4064) 0 (b + 4092) (by omega) (by omega) (by omega),
      read32_write32_ne _ (b + 4068) 0 (b + 4092) (by omega) (by omega) (by omega),
      read32_write32_ne _ (b + 4072) 0 (b + 4092) (by omega) (by omega) (by omega),
      read32_write32_ne _ (b + 4076) 0 (b + 4092) (by omega) (by omega) (by omega),
      read32_write32_ne _ (b + 4080) 0 (b + 4092) (by omega) (by omega) (by omega),
      read32_write32_ne _ (b + 4084) 0 (b + 4092) (by omega) (by omega) (by omega),
      read32_write32_ne _ (b + 4088) 0x202 (b + 4092) (by omega) (by omega) (by omega),
      read32_write32_same _ (b + 4092) e (by omega) he]
  · rw [setup_task_stack_eq m b e hb]
    simp only []
    rw [read32_write32_ne _ (b + 4060) 0 (b + 4088) (by omega) (by omega) (by omega),
      read32_write32_ne _ (b + 4064) 0 (b + 4088) (by omega) (by omega) (by omega),
      read32_write32_ne _ (b + 4068) 0 (b + 4088) (by omega) (by omega) (by omega),
      read32_write32_ne _ (b + 4072) 0 (b + 4088) (by omega) (by omega) (by omega),
      read32_write32_ne _ (b + 4076) 0 (b + 4088) (by omega) (by omega) (by omega),
      read32_write32_ne _ (b + 4080) 0 (b + 4088) (by omega) (by omega) (by omega),
      read32_write32_ne _ (b + 4084) 0 (b + 4088) (by omega) (by omega) (by omega),
      read32_write32_same _ (b + 4088) 0x202 (by omega) (by decide)]
  · intro i hi
    rw [setup_task_stack_eq m b e hb]
    simp only []
    interval_cases i
    · rw [read32_write32_same _ (b + 4060 + 4 * 0) 0 (by omega) (by decide)]
    · rw [read32_write32_ne _ (b + 4060) 0 (b + 4060 + 4 * 1) (by omega) (by omega) (by omega),
        read32_write32_same _ (b + 4064) 0 (by omega) (by decide)]
    · rw [read32_write32_ne _ (b + 4060) 0 (b + 4060 + 4 * 2) (by omega) (by omega) (by omega),
        read32_write32_ne _ (b + 4064) 0 (b + 4060 + 4 * 2) (by omega) (by omega) (by omega),
        read32_write32_same _ (b + 4068) 0 (by omega) (by decide)]
    · rw [read32_write32_ne _ (b + 4060) 0 (b + 4060 + 4 * 3) (by omega) (by omega) (by omega),
        read32_write32_ne _ (b + 4064) 0 (b + 4060 + 4 * 3) (by omega) (by omega) (by omega),
        read32_write32_ne _ (b + 4068) 0 (b + 4060 + 4 * 3) (by omega) (by omega) (by omega),
        read32_write32_same _ (b + 4072) 0 (by omega) (by decide)]
    · rw [read32_write32_ne _ (b + 4060) 0 (b + 4060 + 4 * 4) (by omega) (by omega) (by omega),
        read32_write32_ne _ (b + 4064) 0 (b + 4060 + 4 * 4) (by omega) (by omega) (by omega),
        read32_write32_ne _ (b + 4068) 0 (b + 4060 + 4 * 4) (by omega) (by omega) (by omega),
        read32_write32_ne _ (b + 4072) 0 (b + 4060 + 4 * 4) (by omega) (by omega) (by omega),
        read32_write32_same _ (b + 4076) 0 (by omega) (by decide)]
    · rw [read32_write32_ne _ (b + 4060) 0 (b + 4060 + 4 * 5) (by omega) (by omega) (by omega),
        read32_write32_ne _ (b + 4064) 0 (b + 4060 + 4 * 5) (by omega) (by omega) (by omega),
        read32_write32_ne _ (b + 4068) 0 (b + 4060 + 4 * 5) (by omega) (by omega) (by omega),
        read32_write32_ne _ (b + 4072) 0 (b + 4060 + 4 * 5) (by omega) (by omega) (by omega),
        read32_write32_ne _ (b + 4076) 0 (b + 4060 + 4 * 5) (by omega) (by omega) (by omega),
        read32_write32_same _ (b + 4080) 0 (by omega) (by decide)]
    · rw [read32_write32_ne _ (b + 4060) 0 (b + 4060 + 4 * 6) (by omega) (by omega) (by omega),
        read32_write32_ne _ (b + 4064) 0 (b + 4060 + 4 * 6) (by omega) (by omega) (by omega),
        read32_write32_ne _ (b + 4068) 0 (b + 4060 + 4 * 6) (by omega) (by omega) (by omega),
        read32_write32_ne _ (b + 4072) 0 (b + 4060 + 4 * 6) (by omega) (by omega) (by omega),
        read32_write32_ne _ (b + 4076) 0 (b + 4060 + 4 * 6) (by omega) (by omega) (by omega),
        read32_write32_ne _ (b + 4080) 0 (b + 4060 + 4 * 6) (by omega) (by omega) (by omega),
        read32_write32_same _ (b + 4084) 0 (by omega) (by decide)]
  · intro x hx
    rw [setup_task_stack_eq m b e hb]
    simp only []
    rw [write32_out _ (b + 4060) 0 x (by omega) (by omega),
      write32_out _ (b + 4064) 0 x (by omega) (by omega),
      write32_out _ (b + 4068) 0 x (by omega) (by omega),
      write32_out _ (b + 4072) 0 x (by omega) (by omega),
      write32_out _ (b + 4076) 0 x (by omega) (by omega),
      write32_out _ (b + 4080) 0 x (by omega) (by omega),
      write32_out _ (b + 4084) 0 x (by omega) (by omega),
      write32_out _ (b + 4088) 0x202 x (by omega) (by omega),
      write32_out _ (b + 4092) (e % U32) x (by omega) (by omega)]
  · rw [task_create_eq_ok s entry_point name a hslot hok]
    simp only [World.tcb]
    rw [tableAt_set_same _ hslot]
  · obtain ⟨-, -, hfit, -⟩ := kmalloc_ok s TASK_STACK_SIZE a hok
    rw [task_create_eq_ok s entry_point name a hslot hok]
    simp only [World.tcb]
    rw [tableAt_set_same _ hslot]
    simp only []
    rw [setup_task_stack_eq s.mem a entry_point hfit]
    show a + 4060 = a + 4096 - 36
    omega
  · rw [task_create_eq_ok s entry_point name a hslot hok]

/-- Witness for C15: the frame of a stack at `0x200000` for the entry point `0x100000`,
and a task created on the fresh world. -/
theorem setup_task_stack_layout_witness :
    (0x200000 + 4096 ≤ 4294967296 ∧ (kmalloc fresh TASK_STACK_SIZE 0x200000).1 ≠ 0) ∧
    (setup_task_stack (fun _ => 0) 0x200000 0x100000).1 = 0x200000 + 4096 - 36 ∧
    read32 (setup_task_stack (fun _ => 0) 0x200000 0x100000).2 (0x200000 + 4092) = 0x100000 :=
  ⟨⟨by decide, by decide⟩,
   (setup_task_stack_layout (fun _ => 0) 0x200000 0x100000 fresh 0x100000 "Task A" 0x200000
      (by decide) (by decide) (by decide) (by decide)).1,
   (setup_task_stack_layout (fun _ => 0) 0x200000 0x100000 fresh 0x100000 "Task A" 0x200000
      (by decide) (by decide) (by decide) (by decide)).2.1⟩

/-! ### Identity texts and the buffer `id_str` -/

theorem clear_loop_live :
    ∀ (n : Nat) (i : Int) (s : World), (clear_loop n i s).live = s.live := by
  intro n
  induction n with
  | zero => intro i s; rfl
  | succ n ih =>
    intro i s
    simp only [clear_loop]
    rw [ih]
    rfl

/-- Whether the allocator grants `a` depends on the live regions only. -/
theorem kmalloc_fst_congr (s w : World) (size a : Nat) (h : w.live = s.live) :
    (kmalloc w size a).1 = (kmalloc s size a).1 := by
  unfold kmalloc
  rw [h]
  split <;> rfl

/-- A `task_create` whose allocation is refused leaves an empty table empty and keeps
the live regions and the counter. -/
theorem task_create_refused (s : World) (entry_point : Nat) (name : String) (a : Nat)
    (h : ∀ k : Int, (tableAt s.tasks k).active = false)
    (hk : (kmalloc s TASK_STACK_SIZE a).1 = 0) :
    (∀ k : Int, (tableAt (task_create s entry_point name a).2.tasks k).active = false) ∧
    (task_create s entry_point name a).2.live = s.live ∧
    (task_create s entry_point name a).2.next_task_id = s.next_task_id := by
  rcases find_free_tcb_slot_spec s with ⟨hf, -⟩ | ⟨h1, h2, -, -⟩
  · rw [task_create_eq_full s entry_point name a hf]
    exact ⟨h, rfl, rfl⟩
  · rw [task_create_eq_fail s entry_point name a ⟨h1, h2⟩ hk]
    refine ⟨?_, rfl, rfl⟩
    intro k
    exact (tableAt_set_frame (fun t => t.active) s.tasks (find_free_tcb_slot s) k
      (fun t => { t with stack_base := 0 }) (fun _ => rfl)).trans (h k)

/-- A `task_create` whose allocation is granted on an empty table fills slot 0. -/
theorem task_create_granted_on_empty (s : World) (entry_point : Nat) (name : String) (a : Nat)
    (h : ∀ k : Int, (tableAt s.tasks k).active = false)
    (hk : (kmalloc s TASK_STACK_SIZE a).1 ≠ 0) :
    tableAt (task_create s entry_point name a).2.tasks 0 =
      { tableAt s.tasks 0 with
        stack_base := a
        esp := (setup_task_stack s.mem a entry_point).1
        active := true
        id := s.next_task_id
        name := name } := by
  rcases find_free_tcb_slot_spec s with ⟨-, hall⟩ | ⟨h1, h2, -, h4⟩
  · have := hall 0
    rw [← tableAt_coe s.tasks 0] at this
    have h0 := h ((0 : Fin MAX_TASKS) : Int)
    rw [this] at h0
    exact Bool.noConfusion h0
  · have h0 : find_free_tcb_slot s = 0 := by
      by_contra hne
      have := h4 0 (le_refl _) (by omega)
      rw [World.tcb, h 0] at this
      exact Bool.noConfusion this
    rw [task_create_eq_ok s entry_point name a ⟨h1, h2⟩ hk, h0]
    simp only []
    rw [tableAt_set_same _ (by decide)]

/-- An active slot is not touched by `task_create`. -/
theorem task_create_keeps_active (s : World) (entry_point : Nat) (name : String) (a : Nat)
    (k : Int) (h : (tableAt s.tasks k).active = true) :
    tableAt (task_create s entry_point name a).2.tasks k = tableAt s.tasks k := by
  rcases find_free_tcb_slot_spec s with ⟨hf, -⟩ | ⟨h1, h2, h3, -⟩
  · rw [task_create_eq_full s entry_point name a hf]
  · have hne : find_free_tcb_slot s ≠ k := by
      intro e
      rw [World.tcb, e, h] at h3
      exact Bool.noConfusion h3
    by_cases hk : (kmalloc s TASK_STACK_SIZE a).1 = 0
    · rw [task_create_eq_fail s entry_point name a ⟨h1, h2⟩ hk]
      simp only []
      rw [tableAt_set_ne _ hne]
    · rw [task_create_eq_ok s entry_point name a ⟨h1, h2⟩ hk]
      simp only []
      rw [tableAt_set_ne _ hne]

/-- The table rebuilt by `cmd_scheduler_start` has valid identities and a counter of at
most 3, whatever the table was before. -/
theorem demo_tasks_created_ids_valid (img : Image) (s : World) (a1 a2 a3 : Nat) :
    ids_valid (demo_tasks_created img s a1 a2 a3) ∧
    (demo_tasks_created img s a1 a2 a3).next_task_id ≤ 3 := by
  have hclear : ids_valid ({ clear_loop MAX_TASKS 0
      (terminal_writestring s "SCHED: Initializing scheduler...\n") with
      next_task_id := 0 } : World) :=
    ids_valid_of_empty _ (le_refl _) (demo_tasks_created_cleared s)
  obtain ⟨v1, b1⟩ := ids_valid_task_create _ img.task_a_entry "Task A" a1 hclear
    (show (0 : Int) + 1 < 2147483648 by decide)
  have b1' : (task_create ({ clear_loop MAX_TASKS 0
      (terminal_writestring s "SCHED: Initializing scheduler...\n") with
      next_task_id := 0 } : World) img.task_a_entry "Task A" a1).2.next_task_id ≤ 1 := b1
  obtain ⟨v2, b2⟩ := ids_valid_task_create _ img.task_b_entry "Task B" a2 v1 (by omega)
  obtain ⟨v3, b3⟩ := ids_valid_task_create _ img.task_c_entry "Task C" a3 v2 (by omega)
  refine ⟨v3, ?_⟩
  have : (demo_tasks_created img s a1 a2 a3).next_task_id ≤
      (task_create (task_create ({ clear_loop MAX_TASKS 0
        (terminal_writestring s "SCHED: Initializing scheduler...\n") with
        next_task_id := 0 } : World) img.task_a_entry "Task A" a1).2
        img.task_b_entry "Task B" a2).2.next_task_id + 1 := b3
  omega

/-- Three `task_create` calls on an empty table: slot 0 is filled as soon as one
allocation is granted, by the first call if its allocation is; when none is granted
nothing changes in the table, the live regions or the counter. -/
theorem three_creates_slot0 (s : World) (e1 e2 e3 : Nat) (n1 n2 n3 : String)
    (a1 a2 a3 : Nat) (h : ∀ k : Int, (tableAt s.tasks k).active = false) :
    ((kmalloc s TASK_STACK_SIZE a1).1 ≠ 0 ∨ (kmalloc s TASK_STACK_SIZE a2).1 ≠ 0 ∨
        (kmalloc s TASK_STACK_SIZE a3).1 ≠ 0 →
      (tableAt (task_create (task_create (task_create s e1 n1 a1).2
        e2 n2 a2).2 e3 n3 a3).2.tasks 0).active = true) ∧
    ((kmalloc s TASK_STACK_SIZE a1).1 = 0 → (kmalloc s TASK_STACK_SIZE a2).1 = 0 →
        (kmalloc s TASK_STACK_SIZE a3).1 = 0 →
      (∀ k : Int, (tableAt (task_create (task_create (task_create s e1 n1 a1).2
        e2 n2 a2).2 e3 n3 a3).2.tasks k).active = false) ∧
      (task_create (task_create (task_create s e1 n1 a1).2
        e2 n2 a2).2 e3 n3 a3).2.live = s.live ∧
      (task_create (task_create (task_create s e1 n1 a1).2
        e2 n2 a2).2 e3 n3 a3).2.next_task_id = s.next_task_id) ∧
    ((kmalloc s TASK_STACK_SIZE a1).1 ≠ 0 →
      tableAt (task_create (task_create (task_create s e1 n1 a1).2
        e2 n2 a2).2 e3 n3 a3).2.tasks 0 =
        { tableAt s.tasks 0 with
          stack_base := a1
          esp := (setup_task_stack s.mem a1 e1).1
          active := true
          id := s.next_task_id
          name := n1 }) := by
  have first : (kmalloc s TASK_STACK_SIZE a1).1 ≠ 0 →
      tableAt (task_create (task_create (task_create s e1 n1 a1).2
        e2 n2 a2).2 e3 n3 a3).2.tasks 0 =
        { tableAt s.tasks 0 with
          stack_base := a1
          esp := (setup_task_stack s.mem a1 e1).1
          active := true
          id := s.next_task_id
          name := n1 } := by
    intro g1
    have r1 := task_create_granted_on_empty s e1 n1 a1 h g1
    have c1 : (tableAt (task_create s e1 n1 a1).2.tasks 0).active = true := by rw [r1]
    have r2 := task_create_keeps_active _ e2 n2 a2 0 c1
    have c2 : (tableAt (task_create (task_create s e1 n1 a1).2 e2 n2 a2).2.tasks 0).active
        = true := by rw [r2]; exact c1
    rw [task_create_keeps_active _ e3 n3 a3 0 c2, r2, r1]
  refine ⟨?_, ?_, first⟩
  · intro g
    by_cases g1 : (kmalloc s TASK_STACK_SIZE a1).1 = 0
    · obtain ⟨x1, l1, -⟩ := task_create_refused s e1 n1 a1 h g1
      by_cases g2 : (kmalloc s TASK_STACK_SIZE a2).1 = 0
      · have g2' : (kmalloc (task_create s e1 n1 a1).2 TASK_STACK_SIZE a2).1 = 0 :=
          (kmalloc_fst_congr s _ TASK_STACK_SIZE a2 l1).trans g2
        obtain ⟨x2, l2, -⟩ := task_create_refused _ e2 n2 a2 x1 g2'
        have g3 : (kmalloc s TASK_STACK_SIZE a3).1 ≠ 0 := by
          rcases g with g | g | g
          · exact absurd g1 g
          · exact absurd g2 g
          · exact g
        have g3' : (kmalloc (task_create (task_create s e1 n1 a1).2 e2 n2 a2).2
            TASK_STACK_SIZE a3).1 ≠ 0 := by
          rw [kmalloc_fst_congr s _ TASK_STACK_SIZE a3 (l2.trans l1)]
          exact g3
        rw [task_create_granted_on_empty _ e3 n3 a3 x2 g3']
      · have g2' : (kmalloc (task_create s e1 n1 a1).2 TASK_STACK_SIZE a2).1 ≠ 0 := by
          rw [kmalloc_fst_congr s _ TASK_STACK_SIZE a2 l1]
          exact g2
        have c2 : (tableAt (task_create (task_create s e1 n1 a1).2 e2 n2 a2).2.tasks 0).active
            = true := by rw [task_create_granted_on_empty _ e2 n2 a2 x1 g2']
        exact task_create_active_mono _ e3 n3 a3 0 c2
    · rw [first g1]
  · intro g1 g2 g3
    obtain ⟨x1, l1, m1⟩ := task_create_refused s e1 n1 a1 h g1
    have g2' : (kmalloc (task_create s e1 n1 a1).2 TASK_STACK_SIZE a2).1 = 0 :=
      (kmalloc_fst_congr s _ TASK_STACK_SIZE a2 l1).trans g2
    obtain ⟨x2, l2, m2⟩ := task_create_refused _ e2 n2 a2 x1 g2'
    have g3' : (kmalloc (task_create (task_create s e1 n1 a1).2 e2 n2 a2).2
        TASK_STACK_SIZE a3).1 = 0 :=
      (kmalloc_fst_congr s _ TASK_STACK_SIZE a3 (l2.trans l1)).trans g3
    obtain ⟨x3, l3, m3⟩ := task_create_refused _ e3 n3 a3 x2 g3'
    exact ⟨x3, l3.trans (l2.trans l1), m3.trans (m2.trans m1)⟩

theorem kmalloc_granted_iff (s : World) (size a : Nat) :
    (kmalloc s size a).1 ≠ 0 ↔ a ≠ 0 ∧ a + size ≤ U32 ∧ a ∉ s.live := by
  constructor
  · intro h
    exact (kmalloc_ok s size a h).2
  · intro h
    unfold kmalloc
    rw [if_pos h]
    exact h.1

/-- A granted `task_create` fills slot `i` when `i` is the first inactive slot. -/
theorem task_create_at (s : World) (entry_point : Nat) (name : String) (a : Nat) (i : Int)
    (hi : 0 ≤ i ∧ i < 4)
    (hlow : ∀ k : Int, 0 ≤ k → k < i → (tableAt s.tasks k).active = true)
    (hfree : (tableAt s.tasks i).active = false)
    (hk : (kmalloc s TASK_STACK_SIZE a).1 ≠ 0) :
    (task_create s entry_point name a).2.tasks =
      tableSet s.tasks i (fun t =>
        { t with
          stack_base := a
          esp := a + 4060
          active := true
          id := s.next_task_id
          name := name }) ∧
    (task_create s entry_point name a).2.live = a :: s.live ∧
    (task_create s entry_point name a).2.next_task_id = wrap_int (s.next_task_id + 1) := by
  have hb : a + 4096 ≤ 4294967296 := (kmalloc_ok s _ a hk).2.2.1
  rcases find_free_tcb_slot_spec s with ⟨-, hall⟩ | ⟨h1, h2, h3, h4⟩
  · obtain ⟨k, rfl, -⟩ := slot?_in hi
    rw [tableAt_coe, hall k] at hfree
    exact Bool.noConfusion hfree
  · have e : find_free_tcb_slot s = i := by
      rcases lt_trichotomy (find_free_tcb_slot s) i with c | c | c
      · have := hlow _ h1 c
        rw [World.tcb] at h3
        rw [h3] at this
        exact Bool.noConfusion this
      · exact c
      · have := h4 i hi.1 c
        rw [World.tcb, hfree] at this
        exact Bool.noConfusion this
    rw [task_create_eq_ok s entry_point name a ⟨h1, h2⟩ hk, e, setup_task_stack_eq _ _ _ hb]
    exact ⟨rfl, rfl, rfl⟩

theorem with_next_task_id_live (c : World) (n : Int) :
    ({ c with next_task_id := n } : World).live = c.live := rfl

/-- The rebuilt table when the allocator grants three distinct addresses: slots 0, 1 and 2
are written in turn, the counter ends at 3. -/
theorem demo_tasks_created_granted (img : Image) (s : World) (a1 a2 a3 : Nat)
    (g1 : (kmalloc s TASK_STACK_SIZE a1).1 ≠ 0) (g2 : (kmalloc s TASK_STACK_SIZE a2).1 ≠ 0)
    (g3 : (kmalloc s TASK_STACK_SIZE a3).1 ≠ 0)
    (d12 : a1 ≠ a2) (d13 : a1 ≠ a3) (d23 : a2 ≠ a3) :
    (demo_tasks_created img s a1 a2 a3).tasks =
      tableSet (tableSet (tableSet
        (clear_loop MAX_TASKS 0
          (terminal_writestring s "SCHED: Initializing scheduler...\n")).tasks
        0 (fun t => { t with
          stack_base := a1, esp := a1 + 4060, active := true, id := 0, name := "Task A" }))
        1 (fun t => { t with
          stack_base := a2, esp := a2 + 4060, active := true, id := 1, name := "Task B" }))
        2 (fun t => { t with
          stack_base := a3, esp := a3 + 4060, active := true, id := 2, name := "Task C" }) ∧
    (demo_tasks_created img s a1 a2 a3).live = a3 :: a2 :: a1 :: s.live ∧
    (demo_tasks_created img s a1 a2 a3).next_task_id = 3 := by
  have hl : ({ clear_loop MAX_TASKS 0
      (terminal_writestring s "SCHED: Initializing scheduler...\n") with
      next_task_id := 0 } : World).live = s.live :=
    (with_next_task_id_live _ 0).trans
      (clear_loop_live MAX_TASKS 0
        (terminal_writestring s "SCHED: Initializing scheduler...\n"))
  have hempty := demo_tasks_created_cleared s
  obtain ⟨n1, f1, v1⟩ := (kmalloc_granted_iff s TASK_STACK_SIZE a1).1 g1
  obtain ⟨n2, f2, v2⟩ := (kmalloc_granted_iff s TASK_STACK_SIZE a2).1 g2
  obtain ⟨n3, f3, v3⟩ := (kmalloc_granted_iff s TASK_STACK_SIZE a3).1 g3
  obtain ⟨t1, l1, c1⟩ := task_create_at _ img.task_a_entry "Task A" a1 0 (by decide)
    (fun k h0 hk => absurd hk (not_lt.2 h0)) (hempty 0)
    ((kmalloc_granted_iff _ _ _).2 ⟨n1, f1, by rw [hl]; exact v1⟩)
  obtain ⟨t2, l2, c2⟩ := task_create_at _ img.task_b_entry "Task B" a2 1 (by decide)
    (fun k h0 hk => by
      have e : k = 0 := by omega
      rw [e, t1, tableAt_set_same _ (by decide)])
    (by rw [t1, tableAt_set_ne _ (by decide)]; exact hempty 1)
    ((kmalloc_granted_iff _ _ _).2 ⟨n2, f2, by
      rw [l1, hl]
      intro hin
      rcases List.mem_cons.1 hin with e | e
      · exact d12 e.symm
      · exact v2 e⟩)
  obtain ⟨t3, l3, c3⟩ := task_create_at _ img.task_c_entry "Task C" a3 2 (by decide)
    (fun k h0 hk => by
      have e : k = 0 ∨ k = 1 := by omega
      rcases e with e | e
      · rw [e, t2, tableAt_set_ne _ (by decide), t1, tableAt_set_same _ (by decide)]
      · rw [e, t2, tableAt_set_same _ (by decide)])
    (by rw [t2, tableAt_set_ne _ (by decide), t1, tableAt_set_ne _ (by decide)]
        exact hempty 2)
    ((kmalloc_granted_iff _ _ _).2 ⟨n3, f3, by
      rw [l2, l1, hl]
      intro hin
      rcases List.mem_cons.1 hin with e | e
      · exact d23 e.symm
      · rcases List.mem_cons.1 e with e | e
        · exact d13 e.symm
        · exact v3 e⟩)
  refine ⟨?_, ?_, ?_⟩
  · show (task_create _ img.task_c_entry "Task C" a3).2.tasks = _
    rw [t3, t2, t1, c2, c1]
    rfl
  · show (task_create _ img.task_c_entry "Task C" a3).2.live = _
    rw [l3, l2, l1, hl]
  · show (task_create _ img.task_c_entry "Task C" a3).2.next_task_id = _
    rw [c3, c2, c1]
    rfl

/-- What `cmd_scheduler_start` writes to the log after the three `task_create` calls: the
first switch, with the local `dummy_esp` as save target, or the refusal text. -/
theorem cmd_scheduler_start_log (img : Image) (s : World) (a1 a2 a3 : Nat)
    (hc : s.current_task_idx = -1) :
    (cmd_scheduler_start img s a1 a2 a3).log =
      (demo_tasks_created img s a1 a2 a3).log ++
        (if first_active_loop (demo_tasks_created img s a1 a2 a3).tasks MAX_TASKS 0 = -1 then
          [Event.terminal_writestring "SCHED: No tasks to run. Scheduler not started.\n"]
        else
          [Event.terminal_writestring "SCHED: Starting first task.\n",
            Event.context_switch SavePtr.dummy_esp
              (tableAt (demo_tasks_created img s a1 a2 a3).tasks
                (first_active_loop (demo_tasks_created img s a1 a2 a3).tasks MAX_TASKS 0)).esp]) := by
  unfold cmd_scheduler_start demo_tasks_created
  rw [if_neg (by rw [hc]; decide)]
  simp only []
  split
  · rfl
  · simp [context_switch, World.touch, terminal_writestring, World.tcb]

theorem first_active_loop_zero_iff (t : Fin MAX_TASKS → TaskControlBlock) :
    first_active_loop t MAX_TASKS 0 = 0 ↔ (tableAt t 0).active = true := by
  rcases first_active_loop_spec t MAX_TASKS 0 (le_refl _) with ⟨hr, hall⟩ | ⟨f1, -, f3, f4⟩
  · constructor
    · intro h
      rw [hr] at h
      exact absurd h (by decide)
    · intro h
      rw [hall 0 (le_refl _) (by decide)] at h
      exact Bool.noConfusion h
  · constructor
    · intro h
      rw [h] at f3
      exact f3
    · intro h
      by_contra hne
      have := f4 0 (le_refl _) (by omega)
      rw [h] at this
      exact Bool.noConfusion this

theorem first_active_loop_of_empty (t : Fin MAX_TASKS → TaskControlBlock)
    (h : ∀ k : Int, (tableAt t k).active = false) :
    first_active_loop t MAX_TASKS 0 = -1 := by
  rcases first_active_loop_spec t MAX_TASKS 0 (le_refl _) with ⟨hr, -⟩ | ⟨-, -, f3, -⟩
  · exact hr
  · rw [h] at f3
    exact Bool.noConfusion f3

/-- The four entries of a table, read through `tableAt`. -/
theorem table_entries (t : Fin MAX_TASKS → TaskControlBlock) :
    t 0 = tableAt t 0 ∧ t 1 = tableAt t 1 ∧ t 2 = tableAt t 2 ∧ t 3 = tableAt t 3 :=
  ⟨(tableAt_coe t 0).symm, (tableAt_coe t 1).symm, (tableAt_coe t 2).symm,
    (tableAt_coe t 3).symm⟩

/-- C10 (amended): called with no cursor, whatever slots are active at call time,
`cmd_scheduler_start` clears the table, resets the counter and runs the three
`task_create` calls of the demo tasks, so that table, counter and live regions are those
of `demo_tasks_created`; the counter ends between 0 and 3 and every active slot holds an
identity below it.  The cursor becomes 0 exactly when the allocator grants at least one
of the three proposed stacks at call time.  When it grants the first, slot 0 is Task A
with identity 0 on that stack and the last two log entries are the start text and the
switch into it with the local `dummy_esp` as save target.  When it grants three distinct
stacks, slots 0, 1, 2 are Task A, B, C with identities 0, 1, 2, slot 3 is inactive and
the counter is 3.  When it grants none, no slot is active, the cursor is still none, the
counter is 0 and the live regions are unchanged.  In every case either the cursor is 0
and slot 0 is active, or there is no cursor and no active slot. -/
theorem cmd_scheduler_start_cursor (img : Image) (s : World) (a1 a2 a3 : Nat)
    (hc : s.current_task_idx = -1) :
    ((cmd_scheduler_start img s a1 a2 a3).tasks = (demo_tasks_created img s a1 a2 a3).tasks ∧
      (cmd_scheduler_start img s a1 a2 a3).next_task_id =
        (demo_tasks_created img s a1 a2 a3).next_task_id ∧
      (cmd_scheduler_start img s a1 a2 a3).live = (demo_tasks_created img s a1 a2 a3).live) ∧
    (0 ≤ (cmd_scheduler_start img s a1 a2 a3).next_task_id ∧
      (cmd_scheduler_start img s a1 a2 a3).next_task_id ≤ 3 ∧
      ∀ j : Fin MAX_TASKS, ((cmd_scheduler_start img s a1 a2 a3).tasks j).active = true →
        0 ≤ ((cmd_scheduler_start img s a1 a2 a3).tasks j).id ∧
        ((cmd_scheduler_start img s a1 a2 a3).tasks j).id <
          (cmd_scheduler_start img s a1 a2 a3).next_task_id) ∧
    ((cmd_scheduler_start img s a1 a2 a3).current_task_idx = 0 ↔
      ((kmalloc s TASK_STACK_SIZE a1).1 ≠ 0 ∨ (kmalloc s TASK_STACK_SIZE a2).1 ≠ 0 ∨
        (kmalloc s TASK_STACK_SIZE a3).1 ≠ 0)) ∧
    ((kmalloc s TASK_STACK_SIZE a1).1 ≠ 0 →
      (cmd_scheduler_start img s a1 a2 a3).current_task_idx = 0 ∧
      ((cmd_scheduler_start img s a1 a2 a3).tasks 0).active = true ∧
      ((cmd_scheduler_start img s a1 a2 a3).tasks 0).name = "Task A" ∧
      ((cmd_scheduler_start img s a1 a2 a3).tasks 0).id = 0 ∧
      ((cmd_scheduler_start img s a1 a2 a3).tasks 0).stack_base = a1 ∧
      ((cmd_scheduler_start img s a1 a2 a3).tasks 0).esp = a1 + 4060 ∧
      (cmd_scheduler_start img s a1 a2 a3).log =
        (demo_tasks_created img s a1 a2 a3).log ++
          [Event.terminal_writestring "SCHED: Starting first task.\n",
            Event.context_switch SavePtr.dummy_esp (a1 + 4060)]) ∧
    ((kmalloc s TASK_STACK_SIZE a1).1 ≠ 0 → (kmalloc s TASK_STACK_SIZE a2).1 ≠ 0 →
        (kmalloc s TASK_STACK_SIZE a3).1 ≠ 0 → a1 ≠ a2 → a1 ≠ a3 → a2 ≠ a3 →
      (((cmd_scheduler_start img s a1 a2 a3).tasks 1).active = true ∧
        ((cmd_scheduler_start img s a1 a2 a3).tasks 1).name = "Task B" ∧
        ((cmd_scheduler_start img s a1 a2 a3).tasks 1).id = 1 ∧
        ((cmd_scheduler_start img s a1 a2 a3).tasks 1).stack_base = a2 ∧
        ((cmd_scheduler_start img s a1 a2 a3).tasks 1).esp = a2 + 4060) ∧
      (((cmd_scheduler_start img s a1 a2 a3).tasks 2).active = true ∧
        ((cmd_scheduler_start img s a1 a2 a3).tasks 2).name = "Task C" ∧
        ((cmd_scheduler_start img s a1 a2 a3).tasks 2).id = 2 ∧
        ((cmd_scheduler_start img s a1 a2 a3).tasks 2).stack_base = a3 ∧
        ((cmd_scheduler_start img s a1 a2 a3).tasks 2).esp = a3 + 4060) ∧
      ((cmd_scheduler_start img s a1 a2 a3).tasks 3).active = false ∧
      (cmd_scheduler_start img s a1 a2 a3).next_task_id = 3 ∧
      (cmd_scheduler_start img s a1 a2 a3).live = a3 :: a2 :: a1 :: s.live) ∧
    ((kmalloc s TASK_STACK_SIZE a1).1 = 0 → (kmalloc s TASK_STACK_SIZE a2).1 = 0 →
        (kmalloc s TASK_STACK_SIZE a3).1 = 0 →
      (cmd_scheduler_start img s a1 a2 a3).current_task_idx = -1 ∧
      (∀ j : Fin MAX_TASKS, ((cmd_scheduler_start img s a1 a2 a3).tasks j).active = false) ∧
      (cmd_scheduler_start img s a1 a2 a3).next_task_id = 0 ∧
      (cmd_scheduler_start img s a1 a2 a3).live = s.live) ∧
    (((cmd_scheduler_start img s a1 a2 a3).current_task_idx = 0 ∧
        ((cmd_scheduler_start img s a1 a2 a3).tasks 0).active = true) ∨
      ((cmd_scheduler_start img s a1 a2 a3).current_task_idx = -1 ∧
        ∀ j : Fin MAX_TASKS, ((cmd_scheduler_start img s a1 a2 a3).tasks j).active = false)) := by
  obtain ⟨e1, e2, e3, e4⟩ := cmd_scheduler_start_fields img s a1 a2 a3 hc
  have elog := cmd_scheduler_start_log img s a1 a2 a3 hc
  obtain ⟨⟨v0, v1, -⟩, vb⟩ := demo_tasks_created_ids_valid img s a1 a2 a3
  have hl : ({ clear_loop MAX_TASKS 0
      (terminal_writestring s "SCHED: Initializing scheduler...\n") with
      next_task_id := 0 } : World).live = s.live :=
    (with_next_task_id_live _ 0).trans
      (clear_loop_live MAX_TASKS 0
        (terminal_writestring s "SCHED: Initializing scheduler...\n"))
  obtain ⟨some_granted, none_granted, first_granted⟩ :=
    three_creates_slot0 _ img.task_a_entry img.task_b_entry img.task_c_entry
      "Task A" "Task B" "Task C" a1 a2 a3 (demo_tasks_created_cleared s)
  rw [kmalloc_fst_congr s _ TASK_STACK_SIZE a1 hl, kmalloc_fst_congr s _ TASK_STACK_SIZE a2 hl,
    kmalloc_fst_congr s _ TASK_STACK_SIZE a3 hl] at some_granted none_granted
  rw [kmalloc_fst_congr s _ TASK_STACK_SIZE a1 hl] at first_granted
  change _ → (tableAt (demo_tasks_created img s a1 a2 a3).tasks 0).active = true
    at some_granted
  change _ → _ → _ →
    (∀ k : Int, (tableAt (demo_tasks_created img s a1 a2 a3).tasks k).active = false) ∧
    (demo_tasks_created img s a1 a2 a3).live = _ ∧
    (demo_tasks_created img s a1 a2 a3).next_task_id = _ at none_granted
  change _ → tableAt (demo_tasks_created img s a1 a2 a3).tasks 0 = _ at first_granted
  obtain ⟨t0, t1, t2, t3⟩ := table_entries (demo_tasks_created img s a1 a2 a3).tasks
  have cursor_iff : (cmd_scheduler_start img s a1 a2 a3).current_task_idx = 0 ↔
      ((kmalloc s TASK_STACK_SIZE a1).1 ≠ 0 ∨ (kmalloc s TASK_STACK_SIZE a2).1 ≠ 0 ∨
        (kmalloc s TASK_STACK_SIZE a3).1 ≠ 0) := by
    rw [e2, first_active_loop_zero_iff]
    constructor
    · intro h
      by_contra hn
      have n1 : (kmalloc s TASK_STACK_SIZE a1).1 = 0 := by
        by_contra c; exact hn (Or.inl c)
      have n2 : (kmalloc s TASK_STACK_SIZE a2).1 = 0 := by
        by_contra c; exact hn (Or.inr (Or.inl c))
      have n3 : (kmalloc s TASK_STACK_SIZE a3).1 = 0 := by
        by_contra c; exact hn (Or.inr (Or.inr c))
      rw [(none_granted n1 n2 n3).1 0] at h
      exact Bool.noConfusion h
    · exact some_granted
  have first_slot : (kmalloc s TASK_STACK_SIZE a1).1 ≠ 0 →
      ((demo_tasks_created img s a1 a2 a3).tasks 0).active = true ∧
      ((demo_tasks_created img s a1 a2 a3).tasks 0).name = "Task A" ∧
      ((demo_tasks_created img s a1 a2 a3).tasks 0).id = 0 ∧
      ((demo_tasks_created img s a1 a2 a3).tasks 0).stack_base = a1 ∧
      ((demo_tasks_created img s a1 a2 a3).tasks 0).esp = a1 + 4060 := by
    intro g1
    have hb : a1 + 4096 ≤ 4294967296 := (kmalloc_ok s _ a1 g1).2.2.1
    rw [t0, first_granted g1]
    refine ⟨rfl, rfl, rfl, rfl, ?_⟩
    show (setup_task_stack _ a1 img.task_a_entry).1 = a1 + 4060
    rw [setup_task_stack_eq _ _ _ hb]
  refine ⟨⟨e1, e3, e4⟩, ⟨?_, ?_, ?_⟩, cursor_iff, ?_, ?_, ?_, ?_⟩
  · rw [e3]; exact v0
  · rw [e3]; exact vb
  · rw [e1, e3]; exact v1
  · intro g1
    have c0 := cursor_iff.2 (Or.inl g1)
    obtain ⟨p1, p2, p3, p4, p5⟩ := first_slot g1
    refine ⟨c0, ?_, ?_, ?_, ?_, ?_, ?_⟩
    · rw [e1]; exact p1
    · rw [e1]; exact p2
    · rw [e1]; exact p3
    · rw [e1]; exact p4
    · rw [e1]; exact p5
    · rw [e2] at c0
      rw [elog, c0, if_neg (by decide), ← t0, p5]
  · intro g1 g2 g3 d12 d13 d23
    obtain ⟨q1, q2, q3⟩ := demo_tasks_created_granted img s a1 a2 a3 g1 g2 g3 d12 d13 d23
    rw [e1, e3, e4, q2, q3, t1, t2, t3, q1]
    refine ⟨?_, ?_, ?_, rfl, rfl⟩
    · rw [tableAt_set_ne _ (by decide), tableAt_set_same _ (by decide)]
      exact ⟨rfl, rfl, rfl, rfl, rfl⟩
    · rw [tableAt_set_same _ (by decide)]
      exact ⟨rfl, rfl, rfl, rfl, rfl⟩
    · rw [tableAt_set_ne _ (by decide), tableAt_set_ne _ (by decide),
        tableAt_set_ne _ (by decide)]
      have := demo_tasks_created_cleared s 3
      exact this
  · intro n1 n2 n3
    obtain ⟨x, l, m⟩ := none_granted n1 n2 n3
    refine ⟨?_, ?_, ?_, ?_⟩
    · rw [e2]; exact first_active_loop_of_empty _ x
    · intro j
      rw [e1, ← tableAt_coe (demo_tasks_created img s a1 a2 a3).tasks j]
      exact x j
    · rw [e3]; exact m
    · rw [e4, l, hl]
  · exact (cmd_scheduler_start_outcome img s a1 a2 a3 hc).symm

/-- Witness for C10 (amended): `sched_start` on the fresh world, where the allocator grants
`0x200000`; the cursor becomes 0 and slot 0 is Task A. -/
theorem cmd_scheduler_start_cursor_witness :
    fresh.current_task_idx = -1 ∧
    (kmalloc fresh TASK_STACK_SIZE 0x200000).1 ≠ 0 ∧
    (cmd_scheduler_start demo_image fresh 0x200000 0x201000 0x202000).current_task_idx = 0 ∧
    ((cmd_scheduler_start demo_image fresh 0x200000 0x201000 0x202000).tasks 0).active
      = true ∧
    ((cmd_scheduler_start demo_image fresh 0x200000 0x201000 0x202000).tasks 0).name
      = "Task A" :=
  ⟨by decide, by decide,
   ((cmd_scheduler_start_cursor demo_image fresh 0x200000 0x201000 0x202000
      (by decide)).2.2.2.1 (by decide)).1,
   ((cmd_scheduler_start_cursor demo_image fresh 0x200000 0x201000 0x202000
      (by decide)).2.2.2.1 (by decide)).2.1,
   ((cmd_scheduler_start_cursor demo_image fresh 0x200000 0x201000 0x202000
      (by decide)).2.2.2.1 (by decide)).2.2.1⟩

end Sched
